import Mathlib

/-!
Shallow embedding of the backup/restore subsystem of the repository
(`backupService` / `restoreService`): the snapshot data model, the
JSON-and-compress serialization pipeline, the archive manager
(list / delete / retention cleanup), the per-restore identifier remapper
(`ObjectIdMapper`) and the restore engine (`restoreUserData` with its
per-kind phases), together with theorems settling the frozen claims.

Modelling conventions, used consistently below:
* Mongo `ObjectId` values are modelled as `Nat`; `new ObjectId()` is
  modelled by an explicit fresh-counter threaded through the state
  (each mint returns the counter and increments it).
* `Date` values (ISO-8601 strings in the source) are modelled as `Nat`
  timestamps; `new Date()` is an explicit `now` parameter.
* The record schemas imported from `@/models/*` are not part of the
  given sources; each record structure therefore keeps exactly the
  fields the backup/restore code reads or writes, plus one opaque
  `extra : String` field standing for the remainder of the record
  (the `...spread` residue, carried through unchanged).
* A field that can be `undefined`/absent at runtime is an `Option`.
* Store collections are lists; `findOne` is `List.find?` (first match),
  `insertOne` appends, `deleteMany {userId}` filters, `deleteOne` /
  `updateOne` / `replaceOne` act on the first match.
* Exceptions thrown by individual store writes are modelled by a
  failure oracle (`FailOracle`): a per-record predicate deciding
  whether the store operation for that record throws, with the thrown
  message.  `noFail` is the oracle under which no store write throws.
-/

namespace Arctix

/-- Per-kind record counts, as in the snapshot header `dataCounts`. -/
structure DataCounts where
  clients : Nat
  invoices : Nat
  documents : Nat
  statements : Nat
  preferences : Nat
  defaults : Nat
deriving DecidableEq

/-- Client record (`@/models/Client`): the fields the backup/restore code
touches (`_id`, `userId`, `email`, `createdAt`, `updatedAt`) plus the
opaque remainder. -/
structure Client where
  _id : Option Nat
  userId : Nat
  email : String
  createdAt : Option Nat
  updatedAt : Option Nat
  extra : String
deriving DecidableEq

/-- The `details` sub-object of an invoice; the restore code reads
`details?.invoiceNumber`. -/
structure InvoiceDetails where
  invoiceNumber : Option String
  extra : String
deriving DecidableEq

/-- Invoice record (`@/models/Invoice`, `InvoiceDocument`). -/
structure InvoiceDocument where
  _id : Option Nat
  userId : Nat
  details : Option InvoiceDetails
  createdAt : Option Nat
  updatedAt : Option Nat
  extra : String
deriving DecidableEq

/-- Generic document record (`@/models/Document`). -/
structure Document where
  _id : Option Nat
  userId : Nat
  invoiceId : Option Nat
  parentDocumentId : Option Nat
  uploadedBy : Nat
  createdAt : Option Nat
  updatedAt : Option Nat
  extra : String
deriving DecidableEq

/-- Statement record (`@/models/Statement`, `StatementDocument`). -/
structure StatementDocument where
  _id : Option Nat
  userId : Nat
  clientId : Option Nat
  clientEmail : Option String
  createdAt : Option Nat
  updatedAt : Option Nat
  extra : String
deriving DecidableEq

/-- Preferences record (`@/models/UserPreferences`); at most one per owner. -/
structure UserPreferences where
  _id : Option Nat
  userId : Nat
  createdAt : Option Nat
  updatedAt : Option Nat
  extra : String
deriving DecidableEq

/-- Named default-value record (`@/models/UserDefaults`). -/
structure UserDefaults where
  _id : Option Nat
  userId : Nat
  name : String
  createdAt : Option Nat
  updatedAt : Option Nat
  extra : String
deriving DecidableEq

/-- Owner profile (`@/models/User`), including the credential secret. -/
structure User where
  _id : Nat
  email : String
  password : String
  extra : String
deriving DecidableEq

/-- The owner profile as included in a snapshot: the runtime result of
`const { password, ...userData } = user` — everything but `password`. -/
structure UserSansPassword where
  _id : Nat
  email : String
  extra : String
deriving DecidableEq

/-- Snapshot metadata header (`BackupData.metadata`). -/
structure BackupMetaHeader where
  userId : Nat
  email : String
  backupDate : Nat
  version : String
  dataCounts : DataCounts
deriving DecidableEq

/-- Snapshot payload (`BackupData.data`). -/
structure BackupPayload where
  user : UserSansPassword
  clients : List Client
  invoices : List InvoiceDocument
  documents : List Document
  statements : List StatementDocument
  preferences : Option UserPreferences
  defaults : List UserDefaults
deriving DecidableEq

/-- A full snapshot (`BackupData`). -/
structure BackupData where
  metadata : BackupMetaHeader
  data : BackupPayload
deriving DecidableEq

/-- The live store: one list per collection, as named in the source. -/
structure Db where
  users : List User
  clients : List Client
  invoices : List InvoiceDocument
  documents : List Document
  statements : List StatementDocument
  preferences : List UserPreferences
  userDefaults : List UserDefaults
deriving DecidableEq

end Arctix

namespace Arctix

/-! ## JSON layer (claim C1)

`createBackupFile` serializes the snapshot with `JSON.stringify` and
compresses with gzip; `readBackupFile` decompresses with gunzip and
`JSON.parse`s the text back.  `JSON.stringify` / `JSON.parse` and
`gzip` / `gunzip` are platform builtins external to the repository.
We model the JSON value tree explicitly (`Json`), render the snapshot
into it with the exact field names the source structures use, and model
the composite text-encode-then-compress step as one executable,
invertible byte encoding of the tree (`encodeJson` / `decodeJsonBytes`,
over an abstract symbol alphabet `Nat`). -/

/-- A JSON value. -/
inductive Json where
  | null : Json
  | bool : Bool → Json
  | num : Int → Json
  | str : String → Json
  | arr : List Json → Json
  | obj : List (String × Json) → Json

/-- Byte encoding of an integer: a sign tag followed by the magnitude. -/
def encodeInt : Int → List Nat
  | .ofNat n => [0, n]
  | .negSucc n => [1, n]

/-- Byte decoding of an integer; inverse of `encodeInt`. -/
def decodeInt : List Nat → Option (Int × List Nat)
  | 0 :: n :: rest => some (.ofNat n, rest)
  | 1 :: n :: rest => some (.negSucc n, rest)
  | _ => none

/-- Byte encoding of a string: its length followed by its characters. -/
def encodeStr (s : String) : List Nat :=
  s.length :: s.data.map Char.toNat

/-- Decode `n` characters off the front of the stream. -/
def decodeChars : Nat → List Nat → Option (List Char × List Nat)
  | 0, l => some ([], l)
  | n + 1, [] => none
  | n + 1, c :: rest =>
    (decodeChars n rest).map fun p => (Char.ofNat c :: p.1, p.2)

/-- Byte decoding of a string; inverse of `encodeStr`. -/
def decodeStr : List Nat → Option (String × List Nat)
  | [] => none
  | n :: rest => (decodeChars n rest).map fun p => (String.mk p.1, p.2)

mutual

/-- Modelled from the spec: the self-contained tagged text encoding
(`JSON.stringify`) followed by the lossless compressor (gzip), both
platform builtins absent from the repository sources, modelled together
as one invertible byte encoding of the JSON tree. -/
def encodeJson : Json → List Nat
  | .null => [0]
  | .bool b => [1, cond b 1 0]
  | .num i => 2 :: encodeInt i
  | .str s => 3 :: encodeStr s
  | .arr xs => 4 :: xs.length :: encodeJsonList xs
  | .obj fs => 5 :: fs.length :: encodeJsonFields fs

/-- Concatenated encodings of the elements of an array. -/
def encodeJsonList : List Json → List Nat
  | [] => []
  | j :: js => encodeJson j ++ encodeJsonList js

/-- Concatenated encodings of the fields of an object. -/
def encodeJsonFields : List (String × Json) → List Nat
  | [] => []
  | (k, v) :: fs => encodeStr k ++ encodeJson v ++ encodeJsonFields fs

end

mutual

/-- Fuel-indexed decoder for the byte encoding of a JSON value. -/
def decodeJson (fuel : Nat) (l : List Nat) : Option (Json × List Nat) :=
  match fuel, l with
  | 0, _ => none
  | _ + 1, [] => none
  | fuel + 1, t :: rest =>
    if t = 0 then some (.null, rest)
    else if t = 1 then
      match rest with
      | b :: r => some (.bool (b != 0), r)
      | [] => none
    else if t = 2 then (decodeInt rest).map fun p => (.num p.1, p.2)
    else if t = 3 then (decodeStr rest).map fun p => (.str p.1, p.2)
    else if t = 4 then
      match rest with
      | n :: r => (decodeJsonList fuel n r).map fun p => (.arr p.1, p.2)
      | [] => none
    else if t = 5 then
      match rest with
      | n :: r => (decodeJsonFields fuel n r).map fun p => (.obj p.1, p.2)
      | [] => none
    else none
termination_by (fuel, 0)

/-- Decode `n` consecutive JSON values (an array body). -/
def decodeJsonList (fuel n : Nat) (l : List Nat) :
    Option (List Json × List Nat) :=
  match n with
  | 0 => some ([], l)
  | n + 1 =>
    (decodeJson fuel l).bind fun p =>
      (decodeJsonList fuel n p.2).map fun q => (p.1 :: q.1, q.2)
termination_by (fuel, n + 1)

/-- Decode `n` consecutive key/value pairs (an object body). -/
def decodeJsonFields (fuel n : Nat) (l : List Nat) :
    Option (List (String × Json) × List Nat) :=
  match n with
  | 0 => some ([], l)
  | n + 1 =>
    (decodeStr l).bind fun k =>
      (decodeJson fuel k.2).bind fun p =>
        (decodeJsonFields fuel n p.2).map fun q => ((k.1, p.1) :: q.1, q.2)
termination_by (fuel, n + 1)

end

mutual

/-- Nesting depth of a JSON value (for choice of decoder fuel). -/
def jsonDepth : Json → Nat
  | .null => 1
  | .bool _ => 1
  | .num _ => 1
  | .str _ => 1
  | .arr xs => 1 + jsonDepthList xs
  | .obj fs => 1 + jsonDepthFields fs

/-- Maximum depth of the elements of an array. -/
def jsonDepthList : List Json → Nat
  | [] => 0
  | j :: js => max (jsonDepth j) (jsonDepthList js)

/-- Maximum depth of the values of an object. -/
def jsonDepthFields : List (String × Json) → Nat
  | [] => 0
  | (_, v) :: fs => max (jsonDepth v) (jsonDepthFields fs)

end

/-- Top-level decoder: run with fuel the length of the stream and insist
the whole stream is consumed, as `JSON.parse` does. -/
def decodeJsonBytes (l : List Nat) : Option Json :=
  match decodeJson l.length l with
  | some (j, []) => some j
  | _ => none

end Arctix

namespace Arctix

theorem decodeJson_zero (l : List Nat) : decodeJson 0 l = none := by
  rw [decodeJson.eq_def]

theorem decodeJson_nil (f : Nat) : decodeJson (f + 1) [] = none := by
  rw [decodeJson.eq_def]

theorem decodeJson_tag0 (f : Nat) (rest : List Nat) :
    decodeJson (f + 1) (0 :: rest) = some (.null, rest) := by
  rw [decodeJson.eq_def]; rfl

theorem decodeJson_tag1 (f : Nat) (b : Nat) (rest : List Nat) :
    decodeJson (f + 1) (1 :: b :: rest) = some (.bool (b != 0), rest) := by
  rw [decodeJson.eq_def]; rfl

theorem decodeJson_tag2 (f : Nat) (rest : List Nat) :
    decodeJson (f + 1) (2 :: rest) =
      (decodeInt rest).map fun p => (.num p.1, p.2) := by
  rw [decodeJson.eq_def]; rfl

theorem decodeJson_tag3 (f : Nat) (rest : List Nat) :
    decodeJson (f + 1) (3 :: rest) =
      (decodeStr rest).map fun p => (.str p.1, p.2) := by
  rw [decodeJson.eq_def]; rfl

theorem decodeJson_tag4 (f : Nat) (n : Nat) (rest : List Nat) :
    decodeJson (f + 1) (4 :: n :: rest) =
      (decodeJsonList f n rest).map fun p => (.arr p.1, p.2) := by
  rw [decodeJson.eq_def]; rfl

theorem decodeJson_tag5 (f : Nat) (n : Nat) (rest : List Nat) :
    decodeJson (f + 1) (5 :: n :: rest) =
      (decodeJsonFields f n rest).map fun p => (.obj p.1, p.2) := by
  rw [decodeJson.eq_def]; rfl

theorem decodeJsonList_zero (f : Nat) (l : List Nat) :
    decodeJsonList f 0 l = some ([], l) := by
  rw [decodeJsonList.eq_def]

theorem decodeJsonList_succ (f n : Nat) (l : List Nat) :
    decodeJsonList f (n + 1) l =
      (decodeJson f l).bind fun p =>
        (decodeJsonList f n p.2).map fun q => (p.1 :: q.1, q.2) := by
  rw [decodeJsonList.eq_def]

theorem decodeJsonFields_zero (f : Nat) (l : List Nat) :
    decodeJsonFields f 0 l = some ([], l) := by
  rw [decodeJsonFields.eq_def]

theorem decodeJsonFields_succ (f n : Nat) (l : List Nat) :
    decodeJsonFields f (n + 1) l =
      (decodeStr l).bind fun k =>
        (decodeJson f k.2).bind fun p =>
          (decodeJsonFields f n p.2).map fun q => ((k.1, p.1) :: q.1, q.2) := by
  rw [decodeJsonFields.eq_def]

theorem jsonDepth_pos (j : Json) : 1 ≤ jsonDepth j := by
  cases j <;> simp [jsonDepth]

theorem decodeInt_encodeInt (i : Int) (rest : List Nat) :
    decodeInt (encodeInt i ++ rest) = some (i, rest) := by
  cases i <;> rfl

theorem decodeChars_map (cs : List Char) (rest : List Nat) :
    decodeChars cs.length (cs.map Char.toNat ++ rest) = some (cs, rest) := by
  induction cs with
  | nil => rfl
  | cons c cs ih => simp [decodeChars, ih, Char.ofNat_toNat]

theorem decodeStr_encodeStr (s : String) (rest : List Nat) :
    decodeStr (encodeStr s ++ rest) = some (s, rest) := by
  obtain ⟨cs⟩ := s
  simp [encodeStr, decodeStr, String.length, decodeChars_map]

theorem decodeJsonList_encode (f : Nat)
    (H : ∀ j rest, jsonDepth j ≤ f →
      decodeJson f (encodeJson j ++ rest) = some (j, rest)) :
    ∀ (xs : List Json) (rest : List Nat), jsonDepthList xs ≤ f →
      decodeJsonList f xs.length (encodeJsonList xs ++ rest) =
        some (xs, rest) := by
  intro xs
  induction xs with
  | nil => intro rest _; simp [encodeJsonList, decodeJsonList_zero]
  | cons j js ih =>
    intro rest h
    simp only [jsonDepthList, max_le_iff] at h
    simp only [encodeJsonList, List.length_cons, List.append_assoc]
    rw [decodeJsonList_succ]
    simp [H j _ h.1, ih _ h.2]

theorem decodeJsonFields_encode (f : Nat)
    (H : ∀ j rest, jsonDepth j ≤ f →
      decodeJson f (encodeJson j ++ rest) = some (j, rest)) :
    ∀ (fs : List (String × Json)) (rest : List Nat), jsonDepthFields fs ≤ f →
      decodeJsonFields f fs.length (encodeJsonFields fs ++ rest) =
        some (fs, rest) := by
  intro fs
  induction fs with
  | nil => intro rest _; simp [encodeJsonFields, decodeJsonFields_zero]
  | cons kv fs ih =>
    obtain ⟨k, v⟩ := kv
    intro rest h
    simp only [jsonDepthFields, max_le_iff] at h
    simp only [encodeJsonFields, List.length_cons, List.append_assoc]
    rw [decodeJsonFields_succ]
    simp [decodeStr_encodeStr, H v _ h.1, ih _ h.2]

theorem decodeJson_encodeJson :
    ∀ (fuel : Nat) (j : Json) (rest : List Nat), jsonDepth j ≤ fuel →
      decodeJson fuel (encodeJson j ++ rest) = some (j, rest) := by
  intro fuel
  induction fuel with
  | zero =>
    intro j rest h
    exact absurd h (by have := jsonDepth_pos j; omega)
  | succ f IH =>
    intro j rest h
    cases j with
    | null => simp [encodeJson, decodeJson_tag0]
    | bool b =>
      cases b <;> simp [encodeJson, decodeJson_tag1]
    | num i =>
      simp only [encodeJson, List.cons_append]
      rw [decodeJson_tag2]
      simp [decodeInt_encodeInt]
    | str s =>
      simp only [encodeJson, List.cons_append]
      rw [decodeJson_tag3]
      simp [decodeStr_encodeStr]
    | arr xs =>
      have hd : jsonDepthList xs ≤ f := by
        simp only [jsonDepth] at h; omega
      simp only [encodeJson, List.cons_append]
      rw [decodeJson_tag4]
      simp [decodeJsonList_encode f IH xs rest hd]
    | obj fs =>
      have hd : jsonDepthFields fs ≤ f := by
        simp only [jsonDepth] at h; omega
      simp only [encodeJson, List.cons_append]
      rw [decodeJson_tag5]
      simp [decodeJsonFields_encode f IH fs rest hd]

mutual

theorem jsonDepth_le_len : ∀ j : Json, jsonDepth j ≤ (encodeJson j).length
  | .null => by simp [jsonDepth, encodeJson]
  | .bool b => by simp [jsonDepth, encodeJson]
  | .num i => by cases i <;> simp [jsonDepth, encodeJson, encodeInt]
  | .str s => by simp [jsonDepth, encodeJson, encodeStr]
  | .arr xs => by
    have := jsonDepthList_le_len xs
    simp only [jsonDepth, encodeJson, List.length_cons]
    omega
  | .obj fs => by
    have := jsonDepthFields_le_len fs
    simp only [jsonDepth, encodeJson, List.length_cons]
    omega

theorem jsonDepthList_le_len :
    ∀ xs : List Json, jsonDepthList xs ≤ (encodeJsonList xs).length
  | [] => by simp [jsonDepthList, encodeJsonList]
  | j :: js => by
    have h1 := jsonDepth_le_len j
    have h2 := jsonDepthList_le_len js
    simp only [jsonDepthList, encodeJsonList, List.length_append]
    omega

theorem jsonDepthFields_le_len :
    ∀ fs : List (String × Json), jsonDepthFields fs ≤ (encodeJsonFields fs).length
  | [] => by simp [jsonDepthFields, encodeJsonFields]
  | (k, v) :: fs => by
    have h1 := jsonDepth_le_len v
    have h2 := jsonDepthFields_le_len fs
    simp only [jsonDepthFields, encodeJsonFields, List.length_append]
    omega

end

/-- Decoding inverts encoding for every JSON value. -/
theorem decodeJsonBytes_encodeJson (j : Json) :
    decodeJsonBytes (encodeJson j) = some j := by
  have h : decodeJson (encodeJson j).length (encodeJson j ++ []) =
      some (j, []) :=
    decodeJson_encodeJson _ j [] (jsonDepth_le_len j)
  simp only [List.append_nil] at h
  simp [decodeJsonBytes, h]

end Arctix

namespace Arctix

/-- Render an optional value, `null` when absent (`JSON.stringify` of a
missing/`null` field). -/
def optJson {α : Type} (f : α → Json) : Option α → Json
  | none => .null
  | some a => f a

/-- A natural number as a JSON number. -/
def natJson (n : Nat) : Json := .num (Int.ofNat n)

/-- Read a natural number back from a JSON value. -/
def asNat : Json → Option Nat
  | .num (.ofNat n) => some n
  | _ => none

/-- Read a string back from a JSON value. -/
def asStr : Json → Option String
  | .str s => some s
  | _ => none

/-- Read an optional natural number back from a JSON value. -/
def asOptNat : Json → Option (Option Nat)
  | .null => some none
  | .num (.ofNat n) => some (some n)
  | _ => none

/-- Read an optional string back from a JSON value. -/
def asOptStr : Json → Option (Option String)
  | .null => some none
  | .str s => some (some s)
  | _ => none

/-- Decode every element of a JSON array. -/
def listFromJson {α : Type} (f : Json → Option α) : List Json → Option (List α)
  | [] => some []
  | j :: js => do
    let a ← f j
    let as ← listFromJson f js
    some (a :: as)

/-- A client record as `JSON.stringify` renders it. -/
def clientToJson (c : Client) : Json :=
  .obj [("_id", optJson natJson c._id), ("userId", natJson c.userId),
        ("email", .str c.email), ("createdAt", optJson natJson c.createdAt),
        ("updatedAt", optJson natJson c.updatedAt), ("extra", .str c.extra)]

/-- Reading a client record back from its JSON rendering (the typed view
`JSON.parse` output is used under, via the `as BackupData` cast). -/
def clientFromJson : Json → Option Client
  | .obj [("_id", i), ("userId", u), ("email", e), ("createdAt", ca),
          ("updatedAt", ua), ("extra", x)] => do
    let iv ← asOptNat i
    let uv ← asNat u
    let ev ← asStr e
    let cav ← asOptNat ca
    let uav ← asOptNat ua
    let xv ← asStr x
    some ⟨iv, uv, ev, cav, uav, xv⟩
  | _ => none

/-- The `details` sub-object of an invoice as JSON. -/
def invoiceDetailsToJson (d : InvoiceDetails) : Json :=
  .obj [("invoiceNumber", optJson Json.str d.invoiceNumber),
        ("extra", .str d.extra)]

/-- Reading invoice details back from JSON. -/
def invoiceDetailsFromJson : Json → Option InvoiceDetails
  | .obj [("invoiceNumber", n), ("extra", x)] => do
    let nv ← asOptStr n
    let xv ← asStr x
    some ⟨nv, xv⟩
  | _ => none

/-- Read an optional `details` sub-object back from JSON. -/
def asOptDetails : Json → Option (Option InvoiceDetails)
  | .null => some none
  | .obj fs => (invoiceDetailsFromJson (.obj fs)).map some
  | _ => none

/-- An invoice record as JSON. -/
def invoiceToJson (v : InvoiceDocument) : Json :=
  .obj [("_id", optJson natJson v._id), ("userId", natJson v.userId),
        ("details", optJson invoiceDetailsToJson v.details),
        ("createdAt", optJson natJson v.createdAt),
        ("updatedAt", optJson natJson v.updatedAt), ("extra", .str v.extra)]

/-- Reading an invoice record back from JSON. -/
def invoiceFromJson : Json → Option InvoiceDocument
  | .obj [("_id", i), ("userId", u), ("details", d), ("createdAt", ca),
          ("updatedAt", ua), ("extra", x)] => do
    let iv ← asOptNat i
    let uv ← asNat u
    let dv ← asOptDetails d
    let cav ← asOptNat ca
    let uav ← asOptNat ua
    let xv ← asStr x
    some ⟨iv, uv, dv, cav, uav, xv⟩
  | _ => none

/-- A document record as JSON. -/
def documentToJson (d : Document) : Json :=
  .obj [("_id", optJson natJson d._id), ("userId", natJson d.userId),
        ("invoiceId", optJson natJson d.invoiceId),
        ("parentDocumentId", optJson natJson d.parentDocumentId),
        ("uploadedBy", natJson d.uploadedBy),
        ("createdAt", optJson natJson d.createdAt),
        ("updatedAt", optJson natJson d.updatedAt), ("extra", .str d.extra)]

/-- Reading a document record back from JSON. -/
def documentFromJson : Json → Option Document
  | .obj [("_id", i), ("userId", u), ("invoiceId", v), ("parentDocumentId", p),
          ("uploadedBy", b), ("createdAt", ca), ("updatedAt", ua),
          ("extra", x)] => do
    let iv ← asOptNat i
    let uv ← asNat u
    let vv ← asOptNat v
    let pv ← asOptNat p
    let bv ← asNat b
    let cav ← asOptNat ca
    let uav ← asOptNat ua
    let xv ← asStr x
    some ⟨iv, uv, vv, pv, bv, cav, uav, xv⟩
  | _ => none

/-- A statement record as JSON. -/
def statementToJson (s : StatementDocument) : Json :=
  .obj [("_id", optJson natJson s._id), ("userId", natJson s.userId),
        ("clientId", optJson natJson s.clientId),
        ("clientEmail", optJson Json.str s.clientEmail),
        ("createdAt", optJson natJson s.createdAt),
        ("updatedAt", optJson natJson s.updatedAt), ("extra", .str s.extra)]

/-- Reading a statement record back from JSON. -/
def statementFromJson : Json → Option StatementDocument
  | .obj [("_id", i), ("userId", u), ("clientId", c), ("clientEmail", e),
          ("createdAt", ca), ("updatedAt", ua), ("extra", x)] => do
    let iv ← asOptNat i
    let uv ← asNat u
    let cv ← asOptNat c
    let ev ← asOptStr e
    let cav ← asOptNat ca
    let uav ← asOptNat ua
    let xv ← asStr x
    some ⟨iv, uv, cv, ev, cav, uav, xv⟩
  | _ => none

/-- A preferences record as JSON. -/
def preferencesToJson (p : UserPreferences) : Json :=
  .obj [("_id", optJson natJson p._id), ("userId", natJson p.userId),
        ("createdAt", optJson natJson p.createdAt),
        ("updatedAt", optJson natJson p.updatedAt), ("extra", .str p.extra)]

/-- Reading a preferences record back from JSON. -/
def preferencesFromJson : Json → Option UserPreferences
  | .obj [("_id", i), ("userId", u), ("createdAt", ca), ("updatedAt", ua),
          ("extra", x)] => do
    let iv ← asOptNat i
    let uv ← asNat u
    let cav ← asOptNat ca
    let uav ← asOptNat ua
    let xv ← asStr x
    some ⟨iv, uv, cav, uav, xv⟩
  | _ => none

/-- Read an optional preferences record (`preferences: ... || null`). -/
def asOptPreferences : Json → Option (Option UserPreferences)
  | .null => some none
  | .obj fs => (preferencesFromJson (.obj fs)).map some
  | _ => none

/-- A named default-value record as JSON. -/
def defaultToJson (d : UserDefaults) : Json :=
  .obj [("_id", optJson natJson d._id), ("userId", natJson d.userId),
        ("name", .str d.name), ("createdAt", optJson natJson d.createdAt),
        ("updatedAt", optJson natJson d.updatedAt), ("extra", .str d.extra)]

/-- Reading a default-value record back from JSON. -/
def defaultFromJson : Json → Option UserDefaults
  | .obj [("_id", i), ("userId", u), ("name", n), ("createdAt", ca),
          ("updatedAt", ua), ("extra", x)] => do
    let iv ← asOptNat i
    let uv ← asNat u
    let nv ← asStr n
    let cav ← asOptNat ca
    let uav ← asOptNat ua
    let xv ← asStr x
    some ⟨iv, uv, nv, cav, uav, xv⟩
  | _ => none

/-- The stripped owner profile as JSON. -/
def userSansToJson (u : UserSansPassword) : Json :=
  .obj [("_id", natJson u._id), ("email", .str u.email), ("extra", .str u.extra)]

/-- Reading the stripped owner profile back from JSON. -/
def userSansFromJson : Json → Option UserSansPassword
  | .obj [("_id", i), ("email", e), ("extra", x)] => do
    let iv ← asNat i
    let ev ← asStr e
    let xv ← asStr x
    some ⟨iv, ev, xv⟩
  | _ => none

/-- The `dataCounts` header object as JSON. -/
def dataCountsToJson (d : DataCounts) : Json :=
  .obj [("clients", natJson d.clients), ("invoices", natJson d.invoices),
        ("documents", natJson d.documents), ("statements", natJson d.statements),
        ("preferences", natJson d.preferences), ("defaults", natJson d.defaults)]

/-- Reading the `dataCounts` header object back from JSON. -/
def dataCountsFromJson : Json → Option DataCounts
  | .obj [("clients", c), ("invoices", v), ("documents", d), ("statements", s),
          ("preferences", p), ("defaults", f)] => do
    let cv ← asNat c
    let vv ← asNat v
    let dv ← asNat d
    let sv ← asNat s
    let pv ← asNat p
    let fv ← asNat f
    some ⟨cv, vv, dv, sv, pv, fv⟩
  | _ => none

/-- The snapshot metadata header as JSON, fields in source order. -/
def backupMetaToJson (m : BackupMetaHeader) : Json :=
  .obj [("userId", natJson m.userId), ("email", .str m.email),
        ("backupDate", natJson m.backupDate), ("version", .str m.version),
        ("dataCounts", dataCountsToJson m.dataCounts)]

/-- Reading the snapshot metadata header back from JSON. -/
def backupMetaFromJson : Json → Option BackupMetaHeader
  | .obj [("userId", u), ("email", e), ("backupDate", d), ("version", v),
          ("dataCounts", c)] => do
    let uv ← asNat u
    let ev ← asStr e
    let dv ← asNat d
    let vv ← asStr v
    let cv ← dataCountsFromJson c
    some ⟨uv, ev, dv, vv, cv⟩
  | _ => none

/-- The snapshot payload as JSON, fields in source order. -/
def backupPayloadToJson (p : BackupPayload) : Json :=
  .obj [("user", userSansToJson p.user),
        ("clients", .arr (p.clients.map clientToJson)),
        ("invoices", .arr (p.invoices.map invoiceToJson)),
        ("documents", .arr (p.documents.map documentToJson)),
        ("statements", .arr (p.statements.map statementToJson)),
        ("preferences", optJson preferencesToJson p.preferences),
        ("defaults", .arr (p.defaults.map defaultToJson))]

/-- Reading the snapshot payload back from JSON. -/
def backupPayloadFromJson : Json → Option BackupPayload
  | .obj [("user", u), ("clients", .arr cs), ("invoices", .arr vs),
          ("documents", .arr ds), ("statements", .arr ss),
          ("preferences", p), ("defaults", .arr fs)] => do
    let uv ← userSansFromJson u
    let cv ← listFromJson clientFromJson cs
    let vv ← listFromJson invoiceFromJson vs
    let dv ← listFromJson documentFromJson ds
    let sv ← listFromJson statementFromJson ss
    let pv ← asOptPreferences p
    let fv ← listFromJson defaultFromJson fs
    some ⟨uv, cv, vv, dv, sv, pv, fv⟩
  | _ => none

/-- The full snapshot as JSON (`JSON.stringify(backupData)`s tree). -/
def backupDataToJson (b : BackupData) : Json :=
  .obj [("metadata", backupMetaToJson b.metadata),
        ("data", backupPayloadToJson b.data)]

/-- Reading the full snapshot back from JSON (the `as BackupData` view). -/
def backupDataFromJson : Json → Option BackupData
  | .obj [("metadata", m), ("data", d)] => do
    let mv ← backupMetaFromJson m
    let dv ← backupPayloadFromJson d
    some ⟨mv, dv⟩
  | _ => none

/-- The serialization step of `createBackupFile`: render the snapshot as
JSON, encode the tree to the compressed byte stream. -/
def createBackupBytes (b : BackupData) : List Nat :=
  encodeJson (backupDataToJson b)

/-- The deserialization step of `readBackupFile`: decompress and parse the
byte stream, then view the JSON tree as a `BackupData`. -/
def readBackupBytes (bs : List Nat) : Option BackupData :=
  (decodeJsonBytes bs).bind backupDataFromJson

end Arctix

namespace Arctix

theorem asOptNat_optJson (o : Option Nat) :
    asOptNat (optJson natJson o) = some o := by
  cases o <;> rfl

theorem asOptStr_optJson (o : Option String) :
    asOptStr (optJson Json.str o) = some o := by
  cases o <;> rfl

theorem clientFromJson_toJson (c : Client) :
    clientFromJson (clientToJson c) = some c := by
  obtain ⟨i, u, e, ca, ua, x⟩ := c
  simp [clientToJson, clientFromJson, asOptNat_optJson, asNat, asStr, natJson]

theorem invoiceDetailsFromJson_toJson (d : InvoiceDetails) :
    invoiceDetailsFromJson (invoiceDetailsToJson d) = some d := by
  obtain ⟨n, x⟩ := d
  simp [invoiceDetailsToJson, invoiceDetailsFromJson, asOptStr_optJson, asStr]

theorem asOptDetails_optJson (o : Option InvoiceDetails) :
    asOptDetails (optJson invoiceDetailsToJson o) = some o := by
  cases o with
  | none => rfl
  | some d =>
    simp only [optJson]
    have h : asOptDetails (invoiceDetailsToJson d) =
        (invoiceDetailsFromJson (invoiceDetailsToJson d)).map some := rfl
    rw [h, invoiceDetailsFromJson_toJson]
    rfl

theorem invoiceFromJson_toJson (v : InvoiceDocument) :
    invoiceFromJson (invoiceToJson v) = some v := by
  obtain ⟨i, u, d, ca, ua, x⟩ := v
  simp [invoiceToJson, invoiceFromJson, asOptNat_optJson, asOptDetails_optJson,
    asNat, asStr, natJson]

theorem documentFromJson_toJson (d : Document) :
    documentFromJson (documentToJson d) = some d := by
  obtain ⟨i, u, v, p, b, ca, ua, x⟩ := d
  simp [documentToJson, documentFromJson, asOptNat_optJson, asNat, asStr,
    natJson]

theorem statementFromJson_toJson (s : StatementDocument) :
    statementFromJson (statementToJson s) = some s := by
  obtain ⟨i, u, c, e, ca, ua, x⟩ := s
  simp [statementToJson, statementFromJson, asOptNat_optJson, asOptStr_optJson,
    asNat, asStr, natJson]

theorem preferencesFromJson_toJson (p : UserPreferences) :
    preferencesFromJson (preferencesToJson p) = some p := by
  obtain ⟨i, u, ca, ua, x⟩ := p
  simp [preferencesToJson, preferencesFromJson, asOptNat_optJson, asNat, asStr,
    natJson]

theorem asOptPreferences_optJson (o : Option UserPreferences) :
    asOptPreferences (optJson preferencesToJson o) = some o := by
  cases o with
  | none => rfl
  | some p =>
    simp only [optJson]
    have h : asOptPreferences (preferencesToJson p) =
        (preferencesFromJson (preferencesToJson p)).map some := rfl
    rw [h, preferencesFromJson_toJson]
    rfl

theorem defaultFromJson_toJson (d : UserDefaults) :
    defaultFromJson (defaultToJson d) = some d := by
  obtain ⟨i, u, n, ca, ua, x⟩ := d
  simp [defaultToJson, defaultFromJson, asOptNat_optJson, asNat, asStr, natJson]

theorem userSansFromJson_toJson (u : UserSansPassword) :
    userSansFromJson (userSansToJson u) = some u := by
  obtain ⟨i, e, x⟩ := u
  simp [userSansToJson, userSansFromJson, asNat, asStr, natJson]

theorem dataCountsFromJson_toJson (d : DataCounts) :
    dataCountsFromJson (dataCountsToJson d) = some d := by
  obtain ⟨c, v, dd, s, p, f⟩ := d
  simp [dataCountsToJson, dataCountsFromJson, asNat, natJson]

theorem backupMetaFromJson_toJson (m : BackupMetaHeader) :
    backupMetaFromJson (backupMetaToJson m) = some m := by
  obtain ⟨u, e, d, v, c⟩ := m
  simp [backupMetaToJson, backupMetaFromJson, asNat, asStr, natJson,
    dataCountsFromJson_toJson]

theorem listFromJson_map {α : Type} (f : Json → Option α) (g : α → Json)
    (h : ∀ a, f (g a) = some a) (l : List α) :
    listFromJson f (l.map g) = some l := by
  induction l with
  | nil => rfl
  | cons a as ih => simp [listFromJson, h, ih]

theorem backupPayloadFromJson_toJson (p : BackupPayload) :
    backupPayloadFromJson (backupPayloadToJson p) = some p := by
  obtain ⟨u, cs, vs, ds, ss, pr, fs⟩ := p
  simp [backupPayloadToJson, backupPayloadFromJson, userSansFromJson_toJson,
    asOptPreferences_optJson,
    listFromJson_map clientFromJson clientToJson clientFromJson_toJson,
    listFromJson_map invoiceFromJson invoiceToJson invoiceFromJson_toJson,
    listFromJson_map documentFromJson documentToJson documentFromJson_toJson,
    listFromJson_map statementFromJson statementToJson statementFromJson_toJson,
    listFromJson_map defaultFromJson defaultToJson defaultFromJson_toJson]

theorem backupDataFromJson_toJson (b : BackupData) :
    backupDataFromJson (backupDataToJson b) = some b := by
  obtain ⟨m, d⟩ := b
  simp [backupDataToJson, backupDataFromJson, backupMetaFromJson_toJson,
    backupPayloadFromJson_toJson]

end Arctix

namespace Arctix

/-- C1: deserializing the serialized form of any valid snapshot returns the
snapshot unchanged: `readBackupFile` applied to the bytes produced by the
serialization step of `createBackupFile` (JSON-encode then gzip) yields a
`BackupData` equal to the original, with no information loss. -/
theorem C1_serialize_roundtrip (b : BackupData) :
    readBackupBytes (createBackupBytes b) = some b := by
  simp [readBackupBytes, createBackupBytes, decodeJsonBytes_encodeJson,
    backupDataFromJson_toJson]


/-! ### JS string builtins, modelled explicitly

The source calls the JavaScript string builtins `toLowerCase`,
`startsWith`, `endsWith`, `replace` (first occurrence only, as the JS
builtin behaves for string patterns) and `split`; they are modelled here
directly over the character list of the string. -/

/-- JS `toLowerCase`, per character. -/
def toLowerStr (s : String) : String := String.mk (s.data.map Char.toLower)

/-- JS `startsWith`. -/
def startsWithStr (s pre : String) : Bool := pre.data.isPrefixOf s.data

/-- JS `endsWith`. -/
def endsWithStr (s post : String) : Bool := post.data.isSuffixOf s.data

/-- JS `replace(pat, "")`: remove the first occurrence of `pat`. -/
def removeFirstOcc (cs pat : List Char) : List Char :=
  match cs with
  | [] => []
  | ch :: rest =>
    if 0 < pat.length ∧ pat.isPrefixOf (ch :: rest) = true then
      (ch :: rest).drop pat.length
    else ch :: removeFirstOcc rest pat

/-- JS `split` on a one-character separator. -/
def splitOnChar (sep : Char) : List Char → List (List Char)
  | [] => [[]]
  | ch :: rest =>
    match splitOnChar sep rest with
    | [] => [[]]
    | g :: gs => if ch == sep then [] :: g :: gs else (ch :: g) :: gs

/-! ## Restore engine (`restoreService`) -/

/-- Restore conflict policy. -/
inductive RestoreMode where
  | merge : RestoreMode
  | replace : RestoreMode
deriving DecidableEq, BEq

/-- `RestoreResult.restored`. -/
structure RestoredCounts where
  clients : Nat
  invoices : Nat
  documents : Nat
  statements : Nat
  preferences : Nat
  defaults : Nat
deriving DecidableEq

/-- `RestoreResult.skipped`. -/
structure SkippedCounts where
  clients : Nat
  invoices : Nat
  documents : Nat
  statements : Nat
deriving DecidableEq

/-- The structured report returned by `restoreUserData`. -/
structure RestoreResult where
  success : Bool
  restored : RestoredCounts
  skipped : SkippedCounts
  errors : List String
deriving DecidableEq

/-- The freshly initialised result object of `restoreUserData`. -/
def initRestoreResult : RestoreResult :=
  { success := true,
    restored := ⟨0, 0, 0, 0, 0, 0⟩,
    skipped := ⟨0, 0, 0, 0⟩,
    errors := [] }

/-- Append one message to the error list. -/
def pushErr (r : RestoreResult) (msg : String) : RestoreResult :=
  { r with errors := r.errors ++ [msg] }

/-- The `ObjectIdMapper` table: snapshot-local identifier (`none` models
the empty string used when a record had no `_id`) to assigned live
identifier (`none` models a stored `undefined`). -/
abbrev ObjectIdMapper := List (Option Nat × Option Nat)

/-- `ObjectIdMapper.set`: record a mapping (later entries shadow earlier
ones, as `Map.set` overwrites). -/
def mapperSet (m : ObjectIdMapper) (oldId newId : Option Nat) : ObjectIdMapper :=
  (oldId, newId) :: m

/-- `Map.get` on the mapping table. -/
def mapperLookup (m : ObjectIdMapper) (k : Option Nat) : Option (Option Nat) :=
  (m.find? (fun e => e.1 == k)).map (fun e => e.2)

/-- `ObjectIdMapper.has`. -/
def mapperHas (m : ObjectIdMapper) (k : Option Nat) : Bool :=
  (mapperLookup m k).isSome

/-- `ObjectIdMapper.get`: a falsy (`undefined` or empty) old identifier or
a miss mints a fresh identifier (`new ObjectId()`, modelled by the fresh
counter); the mint is not written back to the table. -/
def mapperGet (m : ObjectIdMapper) (oldId : Option Nat) (fresh : Nat) :
    Nat × Nat :=
  match oldId with
  | none => (fresh, fresh + 1)
  | some k =>
    match mapperLookup m (some k) with
    | some (some v) => (v, fresh)
    | _ => (fresh, fresh + 1)

/-- Failure oracle: which store writes throw, and with what message.
`prep` is the replace-mode bulk-delete phase (the only throw point not
wrapped by a per-record catch); the per-record components give the
exception thrown while restoring that record, if any. -/
structure FailOracle where
  prep : Option String
  client : Client → Option String
  invoice : InvoiceDocument → Option String
  statement : StatementDocument → Option String
  document : Document → Option String
  prefs : Option String
  dflt : UserDefaults → Option String

/-- The oracle under which no store write throws. -/
def noFail : FailOracle :=
  { prep := none, client := fun _ => none, invoice := fun _ => none,
    statement := fun _ => none, document := fun _ => none, prefs := none,
    dflt := fun _ => none }

/-- Mutable state threaded through the restore phases: the store, the
remap table, the fresh-identifier counter and the result object. -/
structure RSt where
  db : Db
  mapper : ObjectIdMapper
  fresh : Nat
  res : RestoreResult

/-- `clientEmailMap.get`: `Map.get` flattening a stored `undefined`. -/
def lookupEmail (m : List (String × Option Nat)) (e : String) : Option Nat :=
  ((m.find? (fun p => p.1 == e)).map (fun p => p.2)).bind id

/-- `restoreClients`: per client, under merge look an existing client up
by target owner and lower-cased email and skip when found (remapping its
identifier to the existing one), otherwise insert a copy owned by the
target; returns the email-to-identifier map built along the way. -/
def restoreClients (fo : FailOracle) (clients : List Client)
    (targetUserId : Nat) (mode : RestoreMode) (now : Nat) (st : RSt)
    (emailToIdMap : List (String × Option Nat)) :
    RSt × List (String × Option Nat) :=
  match clients with
  | [] => (st, emailToIdMap)
  | client :: rest =>
    match fo.client client with
    | some msg =>
      restoreClients fo rest targetUserId mode now
        { st with res := pushErr st.res ("Error restoring client: " ++ msg) }
        emailToIdMap
    | none =>
      let oldId := client._id
      let clientEmail := toLowerStr client.email
      let existing :=
        if mode = RestoreMode.merge then
          st.db.clients.find?
            (fun e => e.userId == targetUserId && e.email == clientEmail)
        else none
      match existing with
      | some ex =>
        restoreClients fo rest targetUserId mode now
          { st with
            mapper := mapperSet st.mapper oldId ex._id,
            res := { st.res with
              skipped := { st.res.skipped with
                clients := st.res.skipped.clients + 1 } } }
          ((clientEmail, ex._id) :: emailToIdMap)
      | none =>
        let newClient : Client :=
          { _id := some st.fresh, userId := targetUserId,
            email := client.email,
            createdAt := some (client.createdAt.getD now),
            updatedAt := some (client.updatedAt.getD now),
            extra := client.extra }
        restoreClients fo rest targetUserId mode now
          { st with
            db := { st.db with clients := st.db.clients ++ [newClient] },
            mapper := mapperSet st.mapper oldId (some st.fresh),
            fresh := st.fresh + 1,
            res := { st.res with
              restored := { st.res.restored with
                clients := st.res.restored.clients + 1 } } }
          ((clientEmail, some st.fresh) :: emailToIdMap)

/-- The `details.invoiceNumber` field of a stored invoice. -/
def invoiceNumberField (v : InvoiceDocument) : Option String :=
  v.details.bind (fun d => d.invoiceNumber)

/-- `restoreInvoices`: under merge, an invoice with a non-empty invoice
number is skipped when one with the same number already exists for the
target owner; otherwise it is inserted owned by the target. -/
def restoreInvoices (fo : FailOracle) (invoices : List InvoiceDocument)
    (targetUserId : Nat) (mode : RestoreMode) (now : Nat)
    (clientEmailMap : List (String × Option Nat)) (st : RSt) : RSt :=
  match invoices with
  | [] => st
  | invoice :: rest =>
    match fo.invoice invoice with
    | some msg =>
      restoreInvoices fo rest targetUserId mode now clientEmailMap
        { st with res := pushErr st.res ("Error restoring invoice: " ++ msg) }
    | none =>
      let oldId := invoice._id
      let invoiceNumber := (invoiceNumberField invoice).getD ""
      let existing :=
        if mode = RestoreMode.merge ∧ invoiceNumber ≠ "" then
          st.db.invoices.find?
            (fun e => e.userId == targetUserId &&
              invoiceNumberField e == some invoiceNumber)
        else none
      match existing with
      | some ex =>
        restoreInvoices fo rest targetUserId mode now clientEmailMap
          { st with
            mapper := mapperSet st.mapper oldId ex._id,
            res := { st.res with
              skipped := { st.res.skipped with
                invoices := st.res.skipped.invoices + 1 } } }
      | none =>
        let newInvoice : InvoiceDocument :=
          { _id := some st.fresh, userId := targetUserId,
            details := invoice.details,
            createdAt := some (invoice.createdAt.getD now),
            updatedAt := some (invoice.updatedAt.getD now),
            extra := invoice.extra }
        restoreInvoices fo rest targetUserId mode now clientEmailMap
          { st with
            db := { st.db with invoices := st.db.invoices ++ [newInvoice] },
            mapper := mapperSet st.mapper oldId (some st.fresh),
            fresh := st.fresh + 1,
            res := { st.res with
              restored := { st.res.restored with
                invoices := st.res.restored.invoices + 1 } } }

/-- `restoreStatements`: every statement is inserted (no merge key); its
client reference is re-resolved through the client-email map when the
statement had a client reference and a usable client email, and dropped
(`undefined`) otherwise. -/
def restoreStatements (fo : FailOracle) (statements : List StatementDocument)
    (targetUserId : Nat) (mode : RestoreMode) (now : Nat)
    (clientEmailMap : List (String × Option Nat)) (st : RSt) : RSt :=
  match statements with
  | [] => st
  | statement :: rest =>
    match fo.statement statement with
    | some msg =>
      restoreStatements fo rest targetUserId mode now clientEmailMap
        { st with res := pushErr st.res ("Error restoring statement: " ++ msg) }
    | none =>
      let newClientId : Option Nat :=
        match statement.clientId with
        | none => none
        | some _ =>
          match statement.clientEmail.map toLowerStr with
          | none => none
          | some e => if e = "" then none else lookupEmail clientEmailMap e
      let newStatement : StatementDocument :=
        { _id := some st.fresh, userId := targetUserId,
          clientId := newClientId, clientEmail := statement.clientEmail,
          createdAt := some (statement.createdAt.getD now),
          updatedAt := some (statement.updatedAt.getD now),
          extra := statement.extra }
      restoreStatements fo rest targetUserId mode now clientEmailMap
        { st with
          db := { st.db with statements := st.db.statements ++ [newStatement] },
          fresh := st.fresh + 1,
          res := { st.res with
            restored := { st.res.restored with
              statements := st.res.restored.statements + 1 } } }

/-- `restoreDocuments`: every document is inserted; its invoice and
parent-document references are rewritten through `ObjectIdMapper.get`
(allocate-on-miss) and its `uploadedBy` is overwritten to the target. -/
def restoreDocuments (fo : FailOracle) (documents : List Document)
    (targetUserId : Nat) (mode : RestoreMode) (now : Nat) (st : RSt) : RSt :=
  match documents with
  | [] => st
  | document :: rest =>
    match fo.document document with
    | some msg =>
      restoreDocuments fo rest targetUserId mode now
        { st with res := pushErr st.res ("Error restoring document: " ++ msg) }
    | none =>
      let p1 : Option Nat × Nat :=
        match document.invoiceId with
        | none => (none, st.fresh)
        | some k =>
          let g := mapperGet st.mapper (some k) st.fresh
          (some g.1, g.2)
      let p2 : Option Nat × Nat :=
        match document.parentDocumentId with
        | none => (none, p1.2)
        | some k =>
          let g := mapperGet st.mapper (some k) p1.2
          (some g.1, g.2)
      let newDocument : Document :=
        { _id := some p2.2, userId := targetUserId, invoiceId := p1.1,
          parentDocumentId := p2.1, uploadedBy := targetUserId,
          createdAt := some (document.createdAt.getD now),
          updatedAt := some (document.updatedAt.getD now),
          extra := document.extra }
      restoreDocuments fo rest targetUserId mode now
        { st with
          db := { st.db with documents := st.db.documents ++ [newDocument] },
          fresh := p2.2 + 1,
          res := { st.res with
            restored := { st.res.restored with
              documents := st.res.restored.documents + 1 } } }

/-- `replaceOne` with `upsert: true` on the preferences collection:
replace the first matching record in place (keeping its `_id`), or append
a new record with a freshly assigned `_id`. -/
def replaceOneUpsert (ps : List UserPreferences)
    (q : UserPreferences → Bool) (newP : UserPreferences) (fresh : Nat) :
    List UserPreferences × Nat :=
  match ps with
  | [] => ([{ newP with _id := some fresh }], fresh + 1)
  | p :: rest =>
    if q p then ({ newP with _id := p._id } :: rest, fresh)
    else
      let r := replaceOneUpsert rest q newP fresh
      (p :: r.1, r.2)

/-- `restorePreferences`: nothing to do when the snapshot has none;
otherwise (replace mode first deletes the target's record) upsert the
snapshot's preferences under the target owner and set the restored
preferences count to 1. -/
def restorePreferences (fo : FailOracle) (preferences : Option UserPreferences)
    (targetUserId : Nat) (mode : RestoreMode) (now : Nat) (st : RSt) : RSt :=
  match preferences with
  | none => st
  | some p =>
    match fo.prefs with
    | some msg =>
      { st with res := pushErr st.res ("Error restoring preferences: " ++ msg) }
    | none =>
      let db1 :=
        if mode = RestoreMode.replace then
          { st.db with
            preferences := st.db.preferences.eraseP
              (fun e => e.userId == targetUserId) }
        else st.db
      let newPreferences : UserPreferences :=
        { _id := none, userId := targetUserId,
          createdAt := some (p.createdAt.getD now),
          updatedAt := some (p.updatedAt.getD now), extra := p.extra }
      let r := replaceOneUpsert db1.preferences
        (fun e => e.userId == targetUserId) newPreferences st.fresh
      { st with
        db := { db1 with preferences := r.1 },
        fresh := r.2,
        res := { st.res with
          restored := { st.res.restored with preferences := 1 } } }

/-- Update the first element satisfying the predicate. -/
def updateFirst {α : Type} (l : List α) (q : α → Bool) (f : α → α) : List α :=
  match l with
  | [] => []
  | x :: r => if q x then f x :: r else x :: updateFirst r q f

/-- `restoreDefaults`: under merge a default with the same name for the
target owner is updated in place (`$set` of the snapshot's fields plus a
fresh `updatedAt`); otherwise a copy owned by the target is inserted. -/
def restoreDefaults (fo : FailOracle) (defaults : List UserDefaults)
    (targetUserId : Nat) (mode : RestoreMode) (now : Nat) (st : RSt) : RSt :=
  match defaults with
  | [] => st
  | defaultItem :: rest =>
    match fo.dflt defaultItem with
    | some msg =>
      restoreDefaults fo rest targetUserId mode now
        { st with res := pushErr st.res ("Error restoring default: " ++ msg) }
    | none =>
      let existing :=
        if mode = RestoreMode.merge then
          st.db.userDefaults.find?
            (fun e => e.userId == targetUserId && e.name == defaultItem.name)
        else none
      match existing with
      | some ex =>
        restoreDefaults fo rest targetUserId mode now
          { st with
            db := { st.db with
              userDefaults := updateFirst st.db.userDefaults
                (fun e => e._id == ex._id)
                (fun e =>
                  { e with
                    name := defaultItem.name,
                    createdAt := defaultItem.createdAt <|> e.createdAt,
                    updatedAt := some now,
                    extra := defaultItem.extra }) } }
      | none =>
        let newDefault : UserDefaults :=
          { _id := some st.fresh, userId := targetUserId,
            name := defaultItem.name,
            createdAt := some (defaultItem.createdAt.getD now),
            updatedAt := some (defaultItem.updatedAt.getD now),
            extra := defaultItem.extra }
        restoreDefaults fo rest targetUserId mode now
          { st with
            db := { st.db with
              userDefaults := st.db.userDefaults ++ [newDefault] },
            fresh := st.fresh + 1,
            res := { st.res with
              restored := { st.res.restored with
                defaults := st.res.restored.defaults + 1 } } }

/-- The replace-mode preparatory phase: `deleteMany {userId: target}` on
all six collections. -/
def clearOwned (targetUserId : Nat) (db : Db) : Db :=
  { db with
    clients := db.clients.filter (fun e => !(e.userId == targetUserId)),
    invoices := db.invoices.filter (fun e => !(e.userId == targetUserId)),
    documents := db.documents.filter (fun e => !(e.userId == targetUserId)),
    statements := db.statements.filter (fun e => !(e.userId == targetUserId)),
    preferences := db.preferences.filter (fun e => !(e.userId == targetUserId)),
    userDefaults := db.userDefaults.filter (fun e => !(e.userId == targetUserId)) }

/-- The six restore phases of `restoreUserData`, in source order:
clients, invoices, statements, documents, preferences, defaults. -/
def runRestorePhases (fo : FailOracle) (backupData : BackupData)
    (targetUserId : Nat) (mode : RestoreMode) (db : Db) (fresh now : Nat) :
    RestoreResult × Db :=
  let st0 : RSt := ⟨db, [], fresh, initRestoreResult⟩
  let s1 := restoreClients fo backupData.data.clients targetUserId mode now st0 []
  let st2 := restoreInvoices fo backupData.data.invoices targetUserId mode now s1.2 s1.1
  let st3 := restoreStatements fo backupData.data.statements targetUserId mode now s1.2 st2
  let st4 := restoreDocuments fo backupData.data.documents targetUserId mode now st3
  let st5 := restorePreferences fo backupData.data.preferences targetUserId mode now st4
  let st6 := restoreDefaults fo backupData.data.defaults targetUserId mode now st5
  (st6.res, st6.db)

/-- `restoreUserData`: replace mode first deletes everything the target
owns (a throw there is the only uncaught, top-level failure: it sets
`success := false` and aborts); then the six phases run in order. -/
def restoreUserData (fo : FailOracle) (backupData : BackupData)
    (targetUserId : Nat) (mode : RestoreMode) (db : Db) (fresh now : Nat) :
    RestoreResult × Db :=
  match mode, fo.prep with
  | RestoreMode.replace, some msg =>
    ({ initRestoreResult with success := false, errors := [msg] }, db)
  | _, _ =>
    let db0 :=
      if mode = RestoreMode.replace then clearOwned targetUserId db else db
    runRestorePhases fo backupData targetUserId mode db0 fresh now

/-! ## Capture (`collectUserData`) -/

/-- `collectUserData`: fetch the owner profile (failing when absent),
fetch the six record sets owned by the user, strip the password, and
assemble the snapshot with counts computed from the fetched sets. -/
def collectUserData (db : Db) (userId : Nat) (now : Nat) :
    Except String BackupData :=
  match db.users.find? (fun u => u._id == userId) with
  | none => Except.error "User not found"
  | some user =>
    let clients := db.clients.filter (fun e => e.userId == userId)
    let invoices := db.invoices.filter (fun e => e.userId == userId)
    let documents := db.documents.filter (fun e => e.userId == userId)
    let statements := db.statements.filter (fun e => e.userId == userId)
    let preferences := db.preferences.find? (fun e => e.userId == userId)
    let defaults := db.userDefaults.filter (fun e => e.userId == userId)
    Except.ok
      { metadata :=
          { userId := userId, email := user.email, backupDate := now,
            version := "1.0",
            dataCounts :=
              { clients := clients.length, invoices := invoices.length,
                documents := documents.length,
                statements := statements.length,
                preferences := if preferences.isSome then 1 else 0,
                defaults := defaults.length } },
        data :=
          { user := { _id := user._id, email := user.email, extra := user.extra },
            clients := clients, invoices := invoices, documents := documents,
            statements := statements, preferences := preferences,
            defaults := defaults } }

end Arctix

namespace Arctix

/-! ## Archive manager (`listUserBackups`, `deleteBackupFile`,
`cleanupOldBackups`) -/

/-- A file in the backup directory: its name, its parsed snapshot content
(`none` when the entry is unreadable/corrupt), its filesystem creation
time and its byte size. -/
structure FileEntry where
  name : String
  data : Option BackupData
  birthtime : Nat
  size : Nat
deriving DecidableEq

/-- The per-archive metadata returned by `listUserBackups`. -/
structure BackupMetadata where
  id : String
  filename : String
  userId : String
  email : String
  backupDate : Nat
  fileSize : Nat
  dataCounts : DataCounts
deriving DecidableEq

/-- The archive naming-pattern filter of `listUserBackups`. -/
def backupNamePattern (n : String) : Bool :=
  startsWithStr n "backup-user-" && endsWithStr n ".json.gz"

/-- The owner fragment parsed from a file name: last dash-separated part
of the name with the extension removed. -/
def fileUserIdOf (n : String) : String :=
  String.mk ((splitOnChar (Char.ofNat 45)
    (removeFirstOcc n.data ".json.gz".data)).getLastD [])

/-- Metadata of one archive entry: from the snapshot header when the
entry is readable, otherwise the degraded fallback (owner fragment,
"unknown" contact, filesystem timestamp, zeroed counts). -/
def metadataOf (e : FileEntry) : BackupMetadata :=
  match e.data with
  | some bd =>
    { id := e.name, filename := e.name, userId := toString bd.metadata.userId,
      email := bd.metadata.email, backupDate := bd.metadata.backupDate,
      fileSize := e.size, dataCounts := bd.metadata.dataCounts }
  | none =>
    { id := e.name, filename := e.name, userId := fileUserIdOf e.name,
      email := "unknown", backupDate := e.birthtime, fileSize := e.size,
      dataCounts := ⟨0, 0, 0, 0, 0, 0⟩ }

/-- `listUserBackups`: entries matching the naming pattern whose embedded
owner fragment is a prefix of the requested owner id, with their metadata,
sorted newest-first by capture timestamp (stable sort, as `Array.sort`). -/
def listUserBackups (userId : String) (fs : List FileEntry) :
    List BackupMetadata :=
  List.insertionSort (fun a b => b.backupDate ≤ a.backupDate)
    ((fs.filter (fun e =>
        backupNamePattern e.name &&
          startsWithStr userId (fileUserIdOf e.name))
      ).map metadataOf)

/-- `deleteBackupFile`: remove the named entry from the directory. -/
def deleteBackupFile (fs : List FileEntry) (filename : String) :
    List FileEntry :=
  fs.filter (fun e => !(e.name == filename))

/-- The deletion loop of `cleanupOldBackups`: try to delete every listed
entry; a deletion failure (per the oracle) is logged and skipped, a
success increments the count. -/
def cleanupSweep (delFail : String → Bool) (toDelete : List BackupMetadata)
    (fs : List FileEntry) : Nat × List FileEntry :=
  match toDelete with
  | [] => (0, fs)
  | b :: rest =>
    if delFail b.filename then cleanupSweep delFail rest fs
    else
      let r := cleanupSweep delFail rest (deleteBackupFile fs b.filename)
      (r.1 + 1, r.2)

/-- `cleanupOldBackups`: nothing to do when at most `keepCount` archives
are listed; otherwise delete every entry beyond the first `keepCount` of
the newest-first listing and return the number actually deleted. -/
def cleanupOldBackups (delFail : String → Bool) (userId : String)
    (keepCount : Nat) (fs : List FileEntry) : Nat × List FileEntry :=
  let backups := listUserBackups userId fs
  if backups.length ≤ keepCount then (0, fs)
  else cleanupSweep delFail (backups.drop keepCount) fs

/-- The oracle under which no deletion fails. -/
def noDelFail : String → Bool := fun _ => false

end Arctix

namespace Arctix

/-! ## Phase bookkeeping lemmas -/

theorem restoreClients_success (fo : FailOracle) (cs : List Client)
    (t : Nat) (mode : RestoreMode) (now : Nat) :
    ∀ (st : RSt) (em : List (String × Option Nat)),
      (restoreClients fo cs t mode now st em).1.res.success =
        st.res.success := by
  induction cs with
  | nil => intro st em; rfl
  | cons c rest ih =>
    intro st em
    rw [restoreClients]
    cases h : fo.client c with
    | some msg => simp [h, ih, pushErr]
    | none =>
      cases hex : (if mode = RestoreMode.merge then
          st.db.clients.find?
            (fun e => e.userId == t && e.email == toLowerStr c.email)
        else none) with
      | some ex => simp [h, hex, ih]
      | none => simp [h, hex, ih]

theorem restoreInvoices_success (fo : FailOracle)
    (vs : List InvoiceDocument) (t : Nat) (mode : RestoreMode) (now : Nat)
    (em : List (String × Option Nat)) :
    ∀ st : RSt,
      (restoreInvoices fo vs t mode now em st).res.success =
        st.res.success := by
  induction vs with
  | nil => intro st; rfl
  | cons v rest ih =>
    intro st
    rw [restoreInvoices]
    cases h : fo.invoice v with
    | some msg => simp [h, ih, pushErr]
    | none =>
      cases hex : (if mode = RestoreMode.merge ∧
            (invoiceNumberField v).getD "" ≠ "" then
          st.db.invoices.find?
            (fun e => e.userId == t &&
              invoiceNumberField e == some ((invoiceNumberField v).getD ""))
        else none) with
      | some ex => simp [h, hex, ih]
      | none => simp [h, hex, ih]

theorem restoreStatements_success (fo : FailOracle)
    (ss : List StatementDocument) (t : Nat) (mode : RestoreMode) (now : Nat)
    (em : List (String × Option Nat)) :
    ∀ st : RSt,
      (restoreStatements fo ss t mode now em st).res.success =
        st.res.success := by
  induction ss with
  | nil => intro st; rfl
  | cons s rest ih =>
    intro st
    rw [restoreStatements]
    cases h : fo.statement s with
    | some msg => simp [h, ih, pushErr]
    | none => simp [h, ih]

theorem restoreDocuments_success (fo : FailOracle) (ds : List Document)
    (t : Nat) (mode : RestoreMode) (now : Nat) :
    ∀ st : RSt,
      (restoreDocuments fo ds t mode now st).res.success =
        st.res.success := by
  induction ds with
  | nil => intro st; rfl
  | cons d rest ih =>
    intro st
    rw [restoreDocuments]
    cases h : fo.document d with
    | some msg => simp [h, ih, pushErr]
    | none => simp [h, ih]

theorem restorePreferences_success (fo : FailOracle)
    (p : Option UserPreferences) (t : Nat) (mode : RestoreMode) (now : Nat)
    (st : RSt) :
    (restorePreferences fo p t mode now st).res.success =
      st.res.success := by
  cases p with
  | none => rfl
  | some p =>
    rw [restorePreferences]
    cases h : fo.prefs with
    | some msg => simp [h, pushErr]
    | none => simp [h]

theorem restoreDefaults_success (fo : FailOracle) (ds : List UserDefaults)
    (t : Nat) (mode : RestoreMode) (now : Nat) :
    ∀ st : RSt,
      (restoreDefaults fo ds t mode now st).res.success =
        st.res.success := by
  induction ds with
  | nil => intro st; rfl
  | cons d rest ih =>
    intro st
    rw [restoreDefaults]
    cases h : fo.dflt d with
    | some msg => simp [h, ih, pushErr]
    | none =>
      cases hex : (if mode = RestoreMode.merge then
          st.db.userDefaults.find?
            (fun e => e.userId == t && e.name == d.name)
        else none) with
      | some ex => simp [h, hex, ih]
      | none => simp [h, hex, ih]

theorem runRestorePhases_success (fo : FailOracle) (bd : BackupData)
    (t : Nat) (mode : RestoreMode) (db : Db) (fresh now : Nat) :
    (runRestorePhases fo bd t mode db fresh now).1.success = true := by
  unfold runRestorePhases
  simp only [restoreDefaults_success, restorePreferences_success,
    restoreDocuments_success, restoreStatements_success,
    restoreInvoices_success, restoreClients_success]
  rfl

end Arctix

namespace Arctix

/-- C5: the `success` flag of the result of `restoreUserData` is `false`
exactly when a top-level exception occurred (the replace-mode preparatory
deletion throwing — the only throw point outside the per-record catches);
per-record failures are appended to the error list and never flip
`success`. -/
theorem C5_success_iff_top_level_failure (fo : FailOracle) (bd : BackupData)
    (t : Nat) (mode : RestoreMode) (db : Db) (fresh now : Nat) :
    (restoreUserData fo bd t mode db fresh now).1.success = false ↔
      (mode = RestoreMode.replace ∧ fo.prep.isSome) := by
  cases mode <;> cases h : fo.prep <;>
    simp [restoreUserData, h, runRestorePhases_success]

/-- C3: in replace mode, `restoreUserData` first deletes every record of
all six kinds owned by the target (and only those), as one preparatory
phase, and only then runs the restore phases on the cleared store. -/
theorem C3_replace_clears_all_owned_first (bd : BackupData) (t : Nat)
    (db : Db) (fresh now : Nat) :
    restoreUserData noFail bd t RestoreMode.replace db fresh now =
      runRestorePhases noFail bd t RestoreMode.replace (clearOwned t db)
        fresh now ∧
    (∀ x, x ∈ (clearOwned t db).clients ↔ x ∈ db.clients ∧ x.userId ≠ t) ∧
    (∀ x, x ∈ (clearOwned t db).invoices ↔ x ∈ db.invoices ∧ x.userId ≠ t) ∧
    (∀ x, x ∈ (clearOwned t db).documents ↔ x ∈ db.documents ∧ x.userId ≠ t) ∧
    (∀ x, x ∈ (clearOwned t db).statements ↔
      x ∈ db.statements ∧ x.userId ≠ t) ∧
    (∀ x, x ∈ (clearOwned t db).preferences ↔
      x ∈ db.preferences ∧ x.userId ≠ t) ∧
    (∀ x, x ∈ (clearOwned t db).userDefaults ↔
      x ∈ db.userDefaults ∧ x.userId ≠ t) := by
  refine ⟨by simp [restoreUserData, noFail], ?_, ?_, ?_, ?_, ?_, ?_⟩ <;>
    intro x <;> simp [clearOwned, List.mem_filter]

end Arctix

namespace Arctix

/-! ## Capture claims (C7, C8) -/

/-- C7: capture fails with the not-found error when the owner profile is
absent, and an existing owner's snapshot carries only the password-free
projection of the profile (the credential secret is stripped
unconditionally; `UserSansPassword` has no password field). -/
theorem C7_capture_strips_secret (db : Db) (userId now : Nat) :
    (db.users.find? (fun u => u._id == userId) = none →
      collectUserData db userId now = Except.error "User not found") ∧
    (∀ u, db.users.find? (fun v => v._id == userId) = some u →
      (collectUserData db userId now).toOption.map (fun b => b.data.user) =
        some { _id := u._id, email := u.email, extra := u.extra }) := by
  constructor
  · intro h
    simp [collectUserData, h]
  · intro u hu
    simp [collectUserData, hu, Except.toOption]

/-- C8: every snapshot produced by capture has header counts equal to the
sizes of the corresponding payload collections, with the preferences
count 1 exactly when a preferences record is present. -/
theorem C8_header_counts_match_payload (db : Db) (userId now : Nat) :
    ∀ bd, collectUserData db userId now = Except.ok bd →
      bd.metadata.dataCounts =
        ⟨bd.data.clients.length, bd.data.invoices.length,
         bd.data.documents.length, bd.data.statements.length,
         (if bd.data.preferences.isSome then 1 else 0),
         bd.data.defaults.length⟩ := by
  intro bd h
  unfold collectUserData at h
  cases hu : db.users.find? (fun u => u._id == userId) with
  | none => rw [hu] at h; exact absurd h (by simp)
  | some u =>
    rw [hu] at h
    simp only [Except.ok.injEq] at h
    subst h
    rfl

/-! Sample data used by the closed witnesses. -/

/-- A sample owner profile. -/
def sampleUser : User := { _id := 1, email := "a@b", password := "pw", extra := "z" }

/-- The empty store. -/
def emptyDb : Db :=
  { users := [], clients := [], invoices := [], documents := [],
    statements := [], preferences := [], userDefaults := [] }

/-- A store holding only the sample owner. -/
def dbWithUser : Db := { emptyDb with users := [sampleUser] }

/-- A sample client owned by the sample owner. -/
def sampleClient : Client :=
  { _id := some 2, userId := 1, email := "c@d", createdAt := some 5,
    updatedAt := some 6, extra := "k" }

/-- A store holding the sample owner, one client and one preferences
record. -/
def dbWithRecords : Db :=
  { dbWithUser with
    clients := [sampleClient],
    preferences := [{ _id := some 3, userId := 1, createdAt := none,
                      updatedAt := none, extra := "p" }] }

/-- The snapshot captured from `dbWithRecords` for owner 1 at time 0. -/
def sampleSnapshot : BackupData :=
  { metadata :=
      { userId := 1, email := "a@b", backupDate := 0, version := "1.0",
        dataCounts := ⟨1, 0, 0, 0, 1, 0⟩ },
    data :=
      { user := { _id := 1, email := "a@b", extra := "z" },
        clients := [sampleClient], invoices := [], documents := [],
        statements := [],
        preferences := some { _id := some 3, userId := 1, createdAt := none,
                              updatedAt := none, extra := "p" },
        defaults := [] } }

theorem C7_witness :
    collectUserData emptyDb 1 0 = Except.error "User not found" ∧
    (collectUserData dbWithUser 1 0).toOption.map (fun b => b.data.user) =
      some { _id := 1, email := "a@b", extra := "z" } :=
  ⟨(C7_capture_strips_secret emptyDb 1 0).1 rfl,
   (C7_capture_strips_secret dbWithUser 1 0).2 sampleUser rfl⟩

theorem C8_witness :
    sampleSnapshot.metadata.dataCounts =
      ⟨sampleSnapshot.data.clients.length, sampleSnapshot.data.invoices.length,
       sampleSnapshot.data.documents.length,
       sampleSnapshot.data.statements.length,
       (if sampleSnapshot.data.preferences.isSome then 1 else 0),
       sampleSnapshot.data.defaults.length⟩ :=
  C8_header_counts_match_payload dbWithRecords 1 0 sampleSnapshot (by rfl)

end Arctix

namespace Arctix

/-! ## Remapper claims (C4, C10) -/

/-- C4: `ObjectIdMapper.get` on an identifier absent from the remap table
mints a fresh identifier and never errors (the function is total), the
mint is not recorded (the table is read-only under `get`: `has` stays
false and `restoreDocuments` leaves the table unchanged); in particular a
document whose snapshot-local `invoiceId` was never assigned is still
inserted, with its invoice reference resolved to the fresh identifier. -/
theorem C4_unmapped_reference_mints_fresh (m : ObjectIdMapper)
    (k fresh : Nat) (d : Document) (t : Nat) (mode : RestoreMode)
    (now : Nat) (st : RSt)
    (hm : mapperLookup m (some k) = none)
    (hd : d.invoiceId = some k)
    (hst : mapperLookup st.mapper (some k) = none) :
    mapperGet m (some k) fresh = (fresh, fresh + 1) ∧
    mapperHas m (some k) = false ∧
    (restoreDocuments noFail [d] t mode now st).mapper = st.mapper ∧
    (restoreDocuments noFail [d] t mode now st).res.errors =
      st.res.errors ∧
    (restoreDocuments noFail [d] t mode now st).res.restored.documents =
      st.res.restored.documents + 1 ∧
    (restoreDocuments noFail [d] t mode now st).db.documents.length =
      st.db.documents.length + 1 ∧
    ((restoreDocuments noFail [d] t mode now st).db.documents.getLast?).map
        (fun nd => (nd.invoiceId, nd.uploadedBy)) =
      some (some st.fresh, t) := by
  have hget : mapperGet st.mapper (some k) st.fresh =
      (st.fresh, st.fresh + 1) := by
    simp [mapperGet, hst]
  refine ⟨by simp [mapperGet, hm], by simp [mapperHas, hm], ?_⟩
  rw [restoreDocuments]
  simp only [noFail, hd, hget]
  cases hp : d.parentDocumentId with
  | none =>
    simp [restoreDocuments, hp, List.getLast?_concat]
  | some k2 =>
    simp [restoreDocuments, hp, List.getLast?_concat]

/-- C10: a statement whose snapshot record has a client reference but
whose (lower-cased) client email is missing from the email map built
during client restoration — or missing altogether — is still inserted,
with its client reference dropped to `undefined` rather than resolved to
a freshly minted identifier. -/
theorem C10_statement_client_ref_dropped (s : StatementDocument) (t : Nat)
    (mode : RestoreMode) (now : Nat) (st : RSt)
    (em : List (String × Option Nat)) (cid : Nat)
    (hc : s.clientId = some cid)
    (he : ∀ e, s.clientEmail = some e →
      em.find? (fun p => p.1 == toLowerStr e) = none) :
    (restoreStatements noFail [s] t mode now em st).db.statements =
      st.db.statements ++
        [{ _id := some st.fresh, userId := t, clientId := none,
           clientEmail := s.clientEmail,
           createdAt := some (s.createdAt.getD now),
           updatedAt := some (s.updatedAt.getD now), extra := s.extra }] ∧
    (restoreStatements noFail [s] t mode now em st).res.restored.statements =
      st.res.restored.statements + 1 ∧
    (restoreStatements noFail [s] t mode now em st).res.errors =
      st.res.errors := by
  have href : (match s.clientId with
      | none => none
      | some _ =>
        match s.clientEmail.map toLowerStr with
        | none => none
        | some e => if e = "" then none
            else lookupEmail em e) = (none : Option Nat) := by
    rw [hc]
    cases hce : s.clientEmail with
    | none => rfl
    | some e =>
      simp only [Option.map_some]
      have := he e hce
      by_cases hz : toLowerStr e = ""
      · simp [hz]
      · simp [hz, lookupEmail, this]
  rw [restoreStatements]
  simp only [noFail, href]
  simp [restoreStatements]

end Arctix

namespace Arctix

/-- A sample document whose invoice reference was never assigned. -/
def sampleDoc : Document :=
  { _id := some 4, userId := 1, invoiceId := some 5,
    parentDocumentId := none, uploadedBy := 1, createdAt := none,
    updatedAt := none, extra := "d" }

/-- A sample restore state. -/
def sampleRSt : RSt :=
  { db := emptyDb, mapper := [], fresh := 10, res := initRestoreResult }

theorem C4_witness :
    mapperGet [] (some 5) 0 = (0, 1) ∧
    mapperHas [] (some 5) = false ∧
    (restoreDocuments noFail [sampleDoc] 7 RestoreMode.merge 0
      sampleRSt).mapper = sampleRSt.mapper ∧
    (restoreDocuments noFail [sampleDoc] 7 RestoreMode.merge 0
      sampleRSt).res.errors = sampleRSt.res.errors ∧
    (restoreDocuments noFail [sampleDoc] 7 RestoreMode.merge 0
      sampleRSt).res.restored.documents =
      sampleRSt.res.restored.documents + 1 ∧
    (restoreDocuments noFail [sampleDoc] 7 RestoreMode.merge 0
      sampleRSt).db.documents.length =
      sampleRSt.db.documents.length + 1 ∧
    ((restoreDocuments noFail [sampleDoc] 7 RestoreMode.merge 0
      sampleRSt).db.documents.getLast?).map
        (fun nd => (nd.invoiceId, nd.uploadedBy)) =
      some (some sampleRSt.fresh, 7) :=
  C4_unmapped_reference_mints_fresh [] 5 0 sampleDoc 7 RestoreMode.merge 0
    sampleRSt rfl rfl rfl

/-- A sample statement with a client reference whose email is not in the
email map. -/
def sampleStatement : StatementDocument :=
  { _id := some 8, userId := 1, clientId := some 9,
    clientEmail := some "X@Y", createdAt := none, updatedAt := none,
    extra := "s" }

theorem C10_witness :
    (restoreStatements noFail [sampleStatement] 7 RestoreMode.merge 0 []
      sampleRSt).db.statements =
      sampleRSt.db.statements ++
        [{ _id := some sampleRSt.fresh, userId := 7, clientId := none,
           clientEmail := sampleStatement.clientEmail,
           createdAt := some (sampleStatement.createdAt.getD 0),
           updatedAt := some (sampleStatement.updatedAt.getD 0),
           extra := sampleStatement.extra }] ∧
    (restoreStatements noFail [sampleStatement] 7 RestoreMode.merge 0 []
      sampleRSt).res.restored.statements =
      sampleRSt.res.restored.statements + 1 ∧
    (restoreStatements noFail [sampleStatement] 7 RestoreMode.merge 0 []
      sampleRSt).res.errors = sampleRSt.res.errors :=
  C10_statement_client_ref_dropped sampleStatement 7 RestoreMode.merge 0
    sampleRSt [] 9 rfl (fun e _ => rfl)

end Arctix

namespace Arctix

/-! ## Ownership-rewriting lemmas (towards C9) -/

theorem restoreClients_db (fo : FailOracle) (cs : List Client) (t : Nat)
    (mode : RestoreMode) (now : Nat) :
    ∀ (st : RSt) (em : List (String × Option Nat)),
      (restoreClients fo cs t mode now st em).1.db.invoices =
        st.db.invoices ∧
      (restoreClients fo cs t mode now st em).1.db.documents =
        st.db.documents ∧
      (restoreClients fo cs t mode now st em).1.db.statements =
        st.db.statements ∧
      (restoreClients fo cs t mode now st em).1.db.preferences =
        st.db.preferences ∧
      (restoreClients fo cs t mode now st em).1.db.userDefaults =
        st.db.userDefaults ∧
      (restoreClients fo cs t mode now st em).1.db.users = st.db.users ∧
      ∀ c ∈ (restoreClients fo cs t mode now st em).1.db.clients,
        c ∈ st.db.clients ∨ c.userId = t := by
  induction cs with
  | nil =>
    intro st em
    exact ⟨rfl, rfl, rfl, rfl, rfl, rfl, fun c hc => Or.inl hc⟩
  | cons c rest ih =>
    intro st em
    rw [restoreClients]
    cases h : fo.client c with
    | some msg => simpa [h] using ih _ _
    | none =>
      cases hex : (if mode = RestoreMode.merge then
          st.db.clients.find?
            (fun e => e.userId == t && e.email == toLowerStr c.email)
        else none) with
      | some ex => simpa [h, hex] using ih _ _
      | none =>
        obtain ⟨h1, h2, h3, h4, h5, h6, hmem⟩ := ih
          { st with
            db := { st.db with clients := st.db.clients ++
              [{ _id := some st.fresh, userId := t, email := c.email,
                 createdAt := some (c.createdAt.getD now),
                 updatedAt := some (c.updatedAt.getD now),
                 extra := c.extra }] },
            mapper := mapperSet st.mapper c._id (some st.fresh),
            fresh := st.fresh + 1,
            res := { st.res with
              restored := { st.res.restored with
                clients := st.res.restored.clients + 1 } } }
          ((toLowerStr c.email, some st.fresh) :: em)
        simp only [h, hex]
        refine ⟨h1, h2, h3, h4, h5, h6, ?_⟩
        intro x hx
        rcases hmem x hx with hin | hid
        · rcases List.mem_append.mp hin with hold | hnew
          · exact Or.inl hold
          · right
            rw [List.mem_singleton.mp hnew]
        · exact Or.inr hid

theorem restoreInvoices_db (fo : FailOracle) (vs : List InvoiceDocument)
    (t : Nat) (mode : RestoreMode) (now : Nat)
    (em : List (String × Option Nat)) :
    ∀ st : RSt,
      (restoreInvoices fo vs t mode now em st).db.clients =
        st.db.clients ∧
      (restoreInvoices fo vs t mode now em st).db.documents =
        st.db.documents ∧
      (restoreInvoices fo vs t mode now em st).db.statements =
        st.db.statements ∧
      (restoreInvoices fo vs t mode now em st).db.preferences =
        st.db.preferences ∧
      (restoreInvoices fo vs t mode now em st).db.userDefaults =
        st.db.userDefaults ∧
      (restoreInvoices fo vs t mode now em st).db.users = st.db.users ∧
      ∀ v ∈ (restoreInvoices fo vs t mode now em st).db.invoices,
        v ∈ st.db.invoices ∨ v.userId = t := by
  induction vs with
  | nil =>
    intro st
    exact ⟨rfl, rfl, rfl, rfl, rfl, rfl, fun v hv => Or.inl hv⟩
  | cons v rest ih =>
    intro st
    rw [restoreInvoices]
    cases h : fo.invoice v with
    | some msg => simpa [h] using ih _
    | none =>
      cases hex : (if mode = RestoreMode.merge ∧
            (invoiceNumberField v).getD "" ≠ "" then
          st.db.invoices.find?
            (fun e => e.userId == t &&
              invoiceNumberField e == some ((invoiceNumberField v).getD ""))
        else none) with
      | some ex => simpa [h, hex] using ih _
      | none =>
        obtain ⟨h1, h2, h3, h4, h5, h6, hmem⟩ := ih
          { st with
            db := { st.db with invoices := st.db.invoices ++
              [{ _id := some st.fresh, userId := t, details := v.details,
                 createdAt := some (v.createdAt.getD now),
                 updatedAt := some (v.updatedAt.getD now),
                 extra := v.extra }] },
            mapper := mapperSet st.mapper v._id (some st.fresh),
            fresh := st.fresh + 1,
            res := { st.res with
              restored := { st.res.restored with
                invoices := st.res.restored.invoices + 1 } } }
        simp only [h, hex]
        refine ⟨h1, h2, h3, h4, h5, h6, ?_⟩
        intro x hx
        rcases hmem x hx with hin | hid
        · rcases List.mem_append.mp hin with hold | hnew
          · exact Or.inl hold
          · right
            rw [List.mem_singleton.mp hnew]
        · exact Or.inr hid

end Arctix

namespace Arctix

theorem restoreStatements_db (fo : FailOracle) (ss : List StatementDocument)
    (t : Nat) (mode : RestoreMode) (now : Nat)
    (em : List (String × Option Nat)) :
    ∀ st : RSt,
      (restoreStatements fo ss t mode now em st).db.clients =
        st.db.clients ∧
      (restoreStatements fo ss t mode now em st).db.invoices =
        st.db.invoices ∧
      (restoreStatements fo ss t mode now em st).db.documents =
        st.db.documents ∧
      (restoreStatements fo ss t mode now em st).db.preferences =
        st.db.preferences ∧
      (restoreStatements fo ss t mode now em st).db.userDefaults =
        st.db.userDefaults ∧
      (restoreStatements fo ss t mode now em st).db.users = st.db.users ∧
      ∀ s ∈ (restoreStatements fo ss t mode now em st).db.statements,
        s ∈ st.db.statements ∨ s.userId = t := by
  induction ss with
  | nil =>
    intro st
    exact ⟨rfl, rfl, rfl, rfl, rfl, rfl, fun s hs => Or.inl hs⟩
  | cons s rest ih =>
    intro st
    rw [restoreStatements]
    cases h : fo.statement s with
    | some msg => simpa [h] using ih _
    | none =>
      obtain ⟨h1, h2, h3, h4, h5, h6, hmem⟩ := ih
        { st with
          db := { st.db with statements := st.db.statements ++
            [{ _id := some st.fresh, userId := t,
               clientId := match s.clientId with
                 | none => none
                 | some _ =>
                   match s.clientEmail.map toLowerStr with
                   | none => none
                   | some e => if e = "" then none else lookupEmail em e,
               clientEmail := s.clientEmail,
               createdAt := some (s.createdAt.getD now),
               updatedAt := some (s.updatedAt.getD now),
               extra := s.extra }] },
          fresh := st.fresh + 1,
          res := { st.res with
            restored := { st.res.restored with
              statements := st.res.restored.statements + 1 } } }
      simp only [h]
      refine ⟨h1, h2, h3, h4, h5, h6, ?_⟩
      intro x hx
      rcases hmem x hx with hin | hid
      · rcases List.mem_append.mp hin with hold | hnew
        · exact Or.inl hold
        · right
          rw [List.mem_singleton.mp hnew]
      · exact Or.inr hid

theorem restoreDocuments_db (fo : FailOracle) (ds : List Document)
    (t : Nat) (mode : RestoreMode) (now : Nat) :
    ∀ st : RSt,
      (restoreDocuments fo ds t mode now st).db.clients = st.db.clients ∧
      (restoreDocuments fo ds t mode now st).db.invoices =
        st.db.invoices ∧
      (restoreDocuments fo ds t mode now st).db.statements =
        st.db.statements ∧
      (restoreDocuments fo ds t mode now st).db.preferences =
        st.db.preferences ∧
      (restoreDocuments fo ds t mode now st).db.userDefaults =
        st.db.userDefaults ∧
      (restoreDocuments fo ds t mode now st).db.users = st.db.users ∧
      ∀ d ∈ (restoreDocuments fo ds t mode now st).db.documents,
        d ∈ st.db.documents ∨ (d.userId = t ∧ d.uploadedBy = t) := by
  induction ds with
  | nil =>
    intro st
    exact ⟨rfl, rfl, rfl, rfl, rfl, rfl, fun d hd => Or.inl hd⟩
  | cons d rest ih =>
    intro st
    rw [restoreDocuments]
    cases h : fo.document d with
    | some msg => simpa [h] using ih _
    | none =>
      simp only [h]
      refine ⟨(ih _).1, (ih _).2.1, (ih _).2.2.1, (ih _).2.2.2.1,
        (ih _).2.2.2.2.1, (ih _).2.2.2.2.2.1, ?_⟩
      intro x hx
      rcases (ih _).2.2.2.2.2.2 x hx with hin | hid
      · rcases List.mem_append.mp hin with hold | hnew
        · exact Or.inl hold
        · right
          rw [List.mem_singleton.mp hnew]
          exact ⟨rfl, rfl⟩
      · exact Or.inr hid

end Arctix

namespace Arctix

theorem replaceOneUpsert_mem (q : UserPreferences → Bool)
    (newP : UserPreferences) :
    ∀ (ps : List UserPreferences) (fresh : Nat) (x : UserPreferences),
      x ∈ (replaceOneUpsert ps q newP fresh).1 →
        x ∈ ps ∨ x.userId = newP.userId := by
  intro ps
  induction ps with
  | nil =>
    intro fresh x hx
    right
    have hx2 : x = { newP with _id := some fresh } := by
      simpa [replaceOneUpsert] using hx
    rw [hx2]
  | cons p rest ih =>
    intro fresh x hx
    by_cases hq : q p
    · simp [replaceOneUpsert, hq] at hx
      rcases hx with hx | hx
      · right; rw [hx]
      · exact Or.inl (List.mem_cons_of_mem _ hx)
    · simp [replaceOneUpsert, hq] at hx
      rcases hx with hx | hx
      · exact Or.inl (by rw [hx]; exact List.mem_cons_self _ _)
      · rcases ih fresh x hx with h | h
        · exact Or.inl (List.mem_cons_of_mem _ h)
        · exact Or.inr h

theorem updateFirst_mem {α : Type} (q : α → Bool) (f : α → α) :
    ∀ (l : List α) (x : α), x ∈ updateFirst l q f →
      x ∈ l ∨ ∃ y, y ∈ l ∧ x = f y := by
  intro l
  induction l with
  | nil => intro x hx; exact Or.inl (by simpa [updateFirst] using hx)
  | cons a rest ih =>
    intro x hx
    by_cases hq : q a
    · simp [updateFirst, hq] at hx
      rcases hx with hx | hx
      · exact Or.inr ⟨a, List.mem_cons_self _ _, hx⟩
      · exact Or.inl (List.mem_cons_of_mem _ hx)
    · simp [updateFirst, hq] at hx
      rcases hx with hx | hx
      · exact Or.inl (by rw [hx]; exact List.mem_cons_self _ _)
      · rcases ih x hx with h | ⟨y, hy, hxy⟩
        · exact Or.inl (List.mem_cons_of_mem _ h)
        · exact Or.inr ⟨y, List.mem_cons_of_mem _ hy, hxy⟩

theorem restorePreferences_db (fo : FailOracle) (p : Option UserPreferences)
    (t : Nat) (mode : RestoreMode) (now : Nat) (st : RSt) :
    (restorePreferences fo p t mode now st).db.clients = st.db.clients ∧
    (restorePreferences fo p t mode now st).db.invoices = st.db.invoices ∧
    (restorePreferences fo p t mode now st).db.documents =
      st.db.documents ∧
    (restorePreferences fo p t mode now st).db.statements =
      st.db.statements ∧
    (restorePreferences fo p t mode now st).db.userDefaults =
      st.db.userDefaults ∧
    (restorePreferences fo p t mode now st).db.users = st.db.users ∧
    ∀ x ∈ (restorePreferences fo p t mode now st).db.preferences,
      x ∈ st.db.preferences ∨ x.userId = t := by
  cases p with
  | none => exact ⟨rfl, rfl, rfl, rfl, rfl, rfl, fun x hx => Or.inl hx⟩
  | some p =>
    rw [restorePreferences]
    cases h : fo.prefs with
    | some msg =>
      simp only [h]
      exact ⟨trivial, trivial, trivial, trivial, trivial, trivial,
        fun x hx => Or.inl hx⟩
    | none =>
      simp only [h]
      by_cases hm : mode = RestoreMode.replace
      · rw [if_pos hm]
        refine ⟨rfl, rfl, rfl, rfl, rfl, rfl, ?_⟩
        intro x hx
        rcases replaceOneUpsert_mem _ _ _ _ _ hx with hin | hid
        · exact Or.inl (List.eraseP_subset _ hin)
        · exact Or.inr hid
      · rw [if_neg hm]
        refine ⟨rfl, rfl, rfl, rfl, rfl, rfl, ?_⟩
        intro x hx
        rcases replaceOneUpsert_mem _ _ _ _ _ hx with hin | hid
        · exact Or.inl hin
        · exact Or.inr hid

theorem restoreDefaults_db (fo : FailOracle) (ds : List UserDefaults)
    (t : Nat) (mode : RestoreMode) (now : Nat) :
    ∀ st : RSt,
      (restoreDefaults fo ds t mode now st).db.clients = st.db.clients ∧
      (restoreDefaults fo ds t mode now st).db.invoices =
        st.db.invoices ∧
      (restoreDefaults fo ds t mode now st).db.documents =
        st.db.documents ∧
      (restoreDefaults fo ds t mode now st).db.statements =
        st.db.statements ∧
      (restoreDefaults fo ds t mode now st).db.preferences =
        st.db.preferences ∧
      (restoreDefaults fo ds t mode now st).db.users = st.db.users ∧
      ∀ x ∈ (restoreDefaults fo ds t mode now st).db.userDefaults,
        (∃ y, y ∈ st.db.userDefaults ∧ x.userId = y.userId) ∨
          x.userId = t := by
  induction ds with
  | nil =>
    intro st
    exact ⟨rfl, rfl, rfl, rfl, rfl, rfl, fun x hx => Or.inl ⟨x, hx, rfl⟩⟩
  | cons d rest ih =>
    intro st
    rw [restoreDefaults]
    cases h : fo.dflt d with
    | some msg => simpa [h] using ih _
    | none =>
      cases hex : (if mode = RestoreMode.merge then
          st.db.userDefaults.find?
            (fun e => e.userId == t && e.name == d.name)
        else none) with
      | some ex =>
        simp only [h, hex]
        refine ⟨(ih _).1, (ih _).2.1, (ih _).2.2.1, (ih _).2.2.2.1,
          (ih _).2.2.2.2.1, (ih _).2.2.2.2.2.1, ?_⟩
        intro x hx
        rcases (ih _).2.2.2.2.2.2 x hx with ⟨y, hy, hxy⟩ | hid
        · rcases updateFirst_mem _ _ _ _ hy with hin | ⟨z, hz, hyz⟩
          · exact Or.inl ⟨y, hin, hxy⟩
          · refine Or.inl ⟨z, hz, ?_⟩
            rw [hxy, hyz]
        · exact Or.inr hid
      | none =>
        simp only [h, hex]
        refine ⟨(ih _).1, (ih _).2.1, (ih _).2.2.1, (ih _).2.2.2.1,
          (ih _).2.2.2.2.1, (ih _).2.2.2.2.2.1, ?_⟩
        intro x hx
        rcases (ih _).2.2.2.2.2.2 x hx with ⟨y, hy, hxy⟩ | hid
        · rcases List.mem_append.mp hy with hold | hnew
          · exact Or.inl ⟨y, hold, hxy⟩
          · right
            rw [hxy, List.mem_singleton.mp hnew]
        · exact Or.inr hid

end Arctix

namespace Arctix

theorem runRestorePhases_db (fo : FailOracle) (bd : BackupData) (t : Nat)
    (mode : RestoreMode) (db : Db) (fresh now : Nat) :
    (∀ c ∈ (runRestorePhases fo bd t mode db fresh now).2.clients,
      c ∈ db.clients ∨ c.userId = t) ∧
    (∀ v ∈ (runRestorePhases fo bd t mode db fresh now).2.invoices,
      v ∈ db.invoices ∨ v.userId = t) ∧
    (∀ s ∈ (runRestorePhases fo bd t mode db fresh now).2.statements,
      s ∈ db.statements ∨ s.userId = t) ∧
    (∀ d ∈ (runRestorePhases fo bd t mode db fresh now).2.documents,
      d ∈ db.documents ∨ (d.userId = t ∧ d.uploadedBy = t)) ∧
    (∀ p ∈ (runRestorePhases fo bd t mode db fresh now).2.preferences,
      p ∈ db.preferences ∨ p.userId = t) ∧
    (∀ x ∈ (runRestorePhases fo bd t mode db fresh now).2.userDefaults,
      (∃ y, y ∈ db.userDefaults ∧ x.userId = y.userId) ∨ x.userId = t) := by
  unfold runRestorePhases
  simp only []
  obtain ⟨c1i, c1d, c1s, c1p, c1u, c1us, c1m⟩ :=
    restoreClients_db fo bd.data.clients t mode now
      ⟨db, [], fresh, initRestoreResult⟩ []
  obtain ⟨i1c, i1d, i1s, i1p, i1u, i1us, i1m⟩ :=
    restoreInvoices_db fo bd.data.invoices t mode now
      (restoreClients fo bd.data.clients t mode now
        ⟨db, [], fresh, initRestoreResult⟩ []).2
      (restoreClients fo bd.data.clients t mode now
        ⟨db, [], fresh, initRestoreResult⟩ []).1
  obtain ⟨s1c, s1i, s1d, s1p, s1u, s1us, s1m⟩ :=
    restoreStatements_db fo bd.data.statements t mode now
      (restoreClients fo bd.data.clients t mode now
        ⟨db, [], fresh, initRestoreResult⟩ []).2
      (restoreInvoices fo bd.data.invoices t mode now
        (restoreClients fo bd.data.clients t mode now
          ⟨db, [], fresh, initRestoreResult⟩ []).2
        (restoreClients fo bd.data.clients t mode now
          ⟨db, [], fresh, initRestoreResult⟩ []).1)
  obtain ⟨d1c, d1i, d1s, d1p, d1u, d1us, d1m⟩ :=
    restoreDocuments_db fo bd.data.documents t mode now
      (restoreStatements fo bd.data.statements t mode now
        (restoreClients fo bd.data.clients t mode now
          ⟨db, [], fresh, initRestoreResult⟩ []).2
        (restoreInvoices fo bd.data.invoices t mode now
          (restoreClients fo bd.data.clients t mode now
            ⟨db, [], fresh, initRestoreResult⟩ []).2
          (restoreClients fo bd.data.clients t mode now
            ⟨db, [], fresh, initRestoreResult⟩ []).1))
  obtain ⟨p1c, p1i, p1d, p1s, p1u, p1us, p1m⟩ :=
    restorePreferences_db fo bd.data.preferences t mode now
      (restoreDocuments fo bd.data.documents t mode now
        (restoreStatements fo bd.data.statements t mode now
          (restoreClients fo bd.data.clients t mode now
            ⟨db, [], fresh, initRestoreResult⟩ []).2
          (restoreInvoices fo bd.data.invoices t mode now
            (restoreClients fo bd.data.clients t mode now
              ⟨db, [], fresh, initRestoreResult⟩ []).2
            (restoreClients fo bd.data.clients t mode now
              ⟨db, [], fresh, initRestoreResult⟩ []).1)))
  obtain ⟨f1c, f1i, f1d, f1s, f1p, f1us, f1m⟩ :=
    restoreDefaults_db fo bd.data.defaults t mode now
      (restorePreferences fo bd.data.preferences t mode now
        (restoreDocuments fo bd.data.documents t mode now
          (restoreStatements fo bd.data.statements t mode now
            (restoreClients fo bd.data.clients t mode now
              ⟨db, [], fresh, initRestoreResult⟩ []).2
            (restoreInvoices fo bd.data.invoices t mode now
              (restoreClients fo bd.data.clients t mode now
                ⟨db, [], fresh, initRestoreResult⟩ []).2
              (restoreClients fo bd.data.clients t mode now
                ⟨db, [], fresh, initRestoreResult⟩ []).1))))
  refine ⟨?_, ?_, ?_, ?_, ?_, ?_⟩
  · intro c hc
    rw [f1c, p1c, d1c, s1c, i1c] at hc
    exact c1m c hc
  · intro v hv
    rw [f1i, p1i, d1i, s1i] at hv
    rcases i1m v hv with h | h
    · rw [c1i] at h
      exact Or.inl h
    · exact Or.inr h
  · intro s hs
    rw [f1s, p1s, d1s] at hs
    rcases s1m s hs with h | h
    · rw [i1s, c1s] at h
      exact Or.inl h
    · exact Or.inr h
  · intro d hd
    rw [f1d, p1d] at hd
    rcases d1m d hd with h | h
    · rw [s1d, i1d, c1d] at h
      exact Or.inl h
    · exact Or.inr h
  · intro p hp
    rw [f1p] at hp
    rcases p1m p hp with h | h
    · rw [d1p, s1p, i1p, c1p] at h
      exact Or.inl h
    · exact Or.inr h
  · intro x hx
    rcases f1m x hx with ⟨y, hy, hxy⟩ | h
    · rw [p1u, d1u, s1u, i1u, c1u] at hy
      exact Or.inl ⟨y, hy, hxy⟩
    · exact Or.inr h

end Arctix

namespace Arctix

/-- C9: every record the restore writes is owned by the target: each
client/invoice/statement in the final store is pre-existing or carries
`userId = target`; each document likewise, with `uploadedBy` also
overwritten to the target; the upserted preferences record carries the
target; and every default is target-owned or keeps the owner of the
pre-existing record it updated (the merge-update writes no owner field,
and the record it updates was looked up under the target owner). -/
theorem C9_restore_rewrites_ownership (fo : FailOracle) (bd : BackupData)
    (t : Nat) (mode : RestoreMode) (db : Db) (fresh now : Nat) :
    (∀ c ∈ (restoreUserData fo bd t mode db fresh now).2.clients,
      c ∈ db.clients ∨ c.userId = t) ∧
    (∀ v ∈ (restoreUserData fo bd t mode db fresh now).2.invoices,
      v ∈ db.invoices ∨ v.userId = t) ∧
    (∀ s ∈ (restoreUserData fo bd t mode db fresh now).2.statements,
      s ∈ db.statements ∨ s.userId = t) ∧
    (∀ d ∈ (restoreUserData fo bd t mode db fresh now).2.documents,
      d ∈ db.documents ∨ (d.userId = t ∧ d.uploadedBy = t)) ∧
    (∀ p ∈ (restoreUserData fo bd t mode db fresh now).2.preferences,
      p ∈ db.preferences ∨ p.userId = t) ∧
    (∀ x ∈ (restoreUserData fo bd t mode db fresh now).2.userDefaults,
      (∃ y, y ∈ db.userDefaults ∧ x.userId = y.userId) ∨ x.userId = t) := by
  cases mode with
  | merge =>
    have h0 : restoreUserData fo bd t RestoreMode.merge db fresh now =
        runRestorePhases fo bd t RestoreMode.merge db fresh now := by
      cases h : fo.prep <;> simp [restoreUserData, h]
    rw [h0]
    exact runRestorePhases_db fo bd t RestoreMode.merge db fresh now
  | replace =>
    cases h : fo.prep with
    | some msg =>
      have h0 : (restoreUserData fo bd t RestoreMode.replace db fresh now).2 =
          db := by
        simp [restoreUserData, h]
      rw [h0]
      exact ⟨fun c hc => Or.inl hc, fun v hv => Or.inl hv,
        fun s hs => Or.inl hs, fun d hd => Or.inl hd,
        fun p hp => Or.inl hp, fun x hx => Or.inl ⟨x, hx, rfl⟩⟩
    | none =>
      have h0 : restoreUserData fo bd t RestoreMode.replace db fresh now =
          runRestorePhases fo bd t RestoreMode.replace (clearOwned t db)
            fresh now := by
        simp [restoreUserData, h]
      rw [h0]
      obtain ⟨m1, m2, m3, m4, m5, m6⟩ :=
        runRestorePhases_db fo bd t RestoreMode.replace (clearOwned t db)
          fresh now
      refine ⟨?_, ?_, ?_, ?_, ?_, ?_⟩
      · intro c hc
        rcases m1 c hc with hin | hid
        · exact Or.inl (List.mem_of_mem_filter hin)
        · exact Or.inr hid
      · intro v hv
        rcases m2 v hv with hin | hid
        · exact Or.inl (List.mem_of_mem_filter hin)
        · exact Or.inr hid
      · intro s hs
        rcases m3 s hs with hin | hid
        · exact Or.inl (List.mem_of_mem_filter hin)
        · exact Or.inr hid
      · intro d hd
        rcases m4 d hd with hin | hid
        · exact Or.inl (List.mem_of_mem_filter hin)
        · exact Or.inr hid
      · intro p hp
        rcases m5 p hp with hin | hid
        · exact Or.inl (List.mem_of_mem_filter hin)
        · exact Or.inr hid
      · intro x hx
        rcases m6 x hx with ⟨y, hy, hxy⟩ | hid
        · exact Or.inl ⟨y, List.mem_of_mem_filter hy, hxy⟩
        · exact Or.inr hid

end Arctix

namespace Arctix

theorem C9_witness :
    ({ _id := some 100, userId := 7, email := "c@d", createdAt := some 5,
       updatedAt := some 6, extra := "k" } : Client) ∈ emptyDb.clients ∨
    ({ _id := some 100, userId := 7, email := "c@d", createdAt := some 5,
       updatedAt := some 6, extra := "k" } : Client).userId = 7 :=
  (C9_restore_rewrites_ownership noFail sampleSnapshot 7 RestoreMode.merge
    emptyDb 100 0).1 _ (by decide)

end Arctix

namespace Arctix

/-! ## Result-count bookkeeping (towards C2) -/

theorem restoreClients_res (fo : FailOracle) (cs : List Client) (t : Nat)
    (mode : RestoreMode) (now : Nat) :
    ∀ (st : RSt) (em : List (String × Option Nat)),
      (restoreClients fo cs t mode now st em).1.res.restored.invoices =
        st.res.restored.invoices ∧
      (restoreClients fo cs t mode now st em).1.res.skipped.invoices =
        st.res.skipped.invoices ∧
      (restoreClients fo cs t mode now st em).1.res.restored.statements =
        st.res.restored.statements ∧
      (restoreClients fo cs t mode now st em).1.res.restored.documents =
        st.res.restored.documents := by
  induction cs with
  | nil => intro st em; exact ⟨rfl, rfl, rfl, rfl⟩
  | cons c rest ih =>
    intro st em
    rw [restoreClients]
    cases h : fo.client c with
    | some msg => simpa [h] using ih _ _
    | none =>
      cases hex : (if mode = RestoreMode.merge then
          st.db.clients.find?
            (fun e => e.userId == t && e.email == toLowerStr c.email)
        else none) with
      | some ex => simpa [h, hex] using ih _ _
      | none => simpa [h, hex] using ih _ _

theorem restoreInvoices_res (fo : FailOracle) (vs : List InvoiceDocument)
    (t : Nat) (mode : RestoreMode) (now : Nat)
    (em : List (String × Option Nat)) :
    ∀ st : RSt,
      (restoreInvoices fo vs t mode now em st).res.restored.clients =
        st.res.restored.clients ∧
      (restoreInvoices fo vs t mode now em st).res.skipped.clients =
        st.res.skipped.clients ∧
      (restoreInvoices fo vs t mode now em st).res.restored.statements =
        st.res.restored.statements ∧
      (restoreInvoices fo vs t mode now em st).res.restored.documents =
        st.res.restored.documents := by
  induction vs with
  | nil => intro st; exact ⟨rfl, rfl, rfl, rfl⟩
  | cons v rest ih =>
    intro st
    rw [restoreInvoices]
    cases h : fo.invoice v with
    | some msg => simpa [h] using ih _
    | none =>
      cases hex : (if mode = RestoreMode.merge ∧
            (invoiceNumberField v).getD "" ≠ "" then
          st.db.invoices.find?
            (fun e => e.userId == t &&
              invoiceNumberField e == some ((invoiceNumberField v).getD ""))
        else none) with
      | some ex => simpa [h, hex] using ih _
      | none => simpa [h, hex] using ih _

theorem restoreStatements_res (fo : FailOracle)
    (ss : List StatementDocument) (t : Nat) (mode : RestoreMode) (now : Nat)
    (em : List (String × Option Nat)) :
    ∀ st : RSt,
      (restoreStatements fo ss t mode now em st).res.restored.clients =
        st.res.restored.clients ∧
      (restoreStatements fo ss t mode now em st).res.skipped.clients =
        st.res.skipped.clients ∧
      (restoreStatements fo ss t mode now em st).res.restored.invoices =
        st.res.restored.invoices ∧
      (restoreStatements fo ss t mode now em st).res.skipped.invoices =
        st.res.skipped.invoices ∧
      (restoreStatements fo ss t mode now em st).res.restored.documents =
        st.res.restored.documents := by
  induction ss with
  | nil => intro st; exact ⟨rfl, rfl, rfl, rfl, rfl⟩
  | cons s rest ih =>
    intro st
    rw [restoreStatements]
    cases h : fo.statement s with
    | some msg => simpa [h] using ih _
    | none => simpa [h] using ih _

theorem restoreDocuments_res (fo : FailOracle) (ds : List Document)
    (t : Nat) (mode : RestoreMode) (now : Nat) :
    ∀ st : RSt,
      (restoreDocuments fo ds t mode now st).res.restored.clients =
        st.res.restored.clients ∧
      (restoreDocuments fo ds t mode now st).res.skipped.clients =
        st.res.skipped.clients ∧
      (restoreDocuments fo ds t mode now st).res.restored.invoices =
        st.res.restored.invoices ∧
      (restoreDocuments fo ds t mode now st).res.skipped.invoices =
        st.res.skipped.invoices ∧
      (restoreDocuments fo ds t mode now st).res.restored.statements =
        st.res.restored.statements := by
  induction ds with
  | nil => intro st; exact ⟨rfl, rfl, rfl, rfl, rfl⟩
  | cons d rest ih =>
    intro st
    rw [restoreDocuments]
    cases h : fo.document d with
    | some msg => simpa [h] using ih _
    | none => simpa [h] using ih _

theorem restorePreferences_res (fo : FailOracle)
    (p : Option UserPreferences) (t : Nat) (mode : RestoreMode) (now : Nat)
    (st : RSt) :
    (restorePreferences fo p t mode now st).res.restored.clients =
      st.res.restored.clients ∧
    (restorePreferences fo p t mode now st).res.skipped.clients =
      st.res.skipped.clients ∧
    (restorePreferences fo p t mode now st).res.restored.invoices =
      st.res.restored.invoices ∧
    (restorePreferences fo p t mode now st).res.skipped.invoices =
      st.res.skipped.invoices ∧
    (restorePreferences fo p t mode now st).res.restored.statements =
      st.res.restored.statements ∧
    (restorePreferences fo p t mode now st).res.restored.documents =
      st.res.restored.documents := by
  cases p with
  | none => exact ⟨rfl, rfl, rfl, rfl, rfl, rfl⟩
  | some p =>
    rw [restorePreferences]
    cases h : fo.prefs with
    | some msg => simp [h, pushErr]
    | none => simp [h]

theorem restoreDefaults_res (fo : FailOracle) (ds : List UserDefaults)
    (t : Nat) (mode : RestoreMode) (now : Nat) :
    ∀ st : RSt,
      (restoreDefaults fo ds t mode now st).res.restored.clients =
        st.res.restored.clients ∧
      (restoreDefaults fo ds t mode now st).res.skipped.clients =
        st.res.skipped.clients ∧
      (restoreDefaults fo ds t mode now st).res.restored.invoices =
        st.res.restored.invoices ∧
      (restoreDefaults fo ds t mode now st).res.skipped.invoices =
        st.res.skipped.invoices ∧
      (restoreDefaults fo ds t mode now st).res.restored.statements =
        st.res.restored.statements ∧
      (restoreDefaults fo ds t mode now st).res.restored.documents =
        st.res.restored.documents := by
  induction ds with
  | nil => intro st; exact ⟨rfl, rfl, rfl, rfl, rfl, rfl⟩
  | cons d rest ih =>
    intro st
    rw [restoreDefaults]
    cases h : fo.dflt d with
    | some msg => simpa [h] using ih _
    | none =>
      cases hex : (if mode = RestoreMode.merge then
          st.db.userDefaults.find?
            (fun e => e.userId == t && e.name == d.name)
        else none) with
      | some ex => simpa [h, hex] using ih _
      | none => simpa [h, hex] using ih _

end Arctix

namespace Arctix

theorem restoreStatements_count (ss : List StatementDocument) (t : Nat)
    (mode : RestoreMode) (now : Nat) (em : List (String × Option Nat)) :
    ∀ st : RSt,
      (restoreStatements noFail ss t mode now em st).res.restored.statements =
        st.res.restored.statements + ss.length := by
  induction ss with
  | nil => intro st; rfl
  | cons s rest ih =>
    intro st
    rw [restoreStatements]
    show (restoreStatements noFail rest t mode now em _).res.restored.statements = _
    rw [ih _]
    simp only [List.length_cons]
    omega

theorem restoreDocuments_count (ds : List Document) (t : Nat)
    (mode : RestoreMode) (now : Nat) :
    ∀ st : RSt,
      (restoreDocuments noFail ds t mode now st).res.restored.documents =
        st.res.restored.documents + ds.length := by
  induction ds with
  | nil => intro st; rfl
  | cons d rest ih =>
    intro st
    rw [restoreDocuments]
    show (restoreDocuments noFail rest t mode now _).res.restored.documents = _
    rw [ih _]
    simp only [List.length_cons]
    omega

theorem restoreClients_mono (fo : FailOracle) (cs : List Client) (t : Nat)
    (mode : RestoreMode) (now : Nat) :
    ∀ (st : RSt) (em : List (String × Option Nat)),
      ∃ app, (restoreClients fo cs t mode now st em).1.db.clients =
        st.db.clients ++ app := by
  induction cs with
  | nil => intro st em; exact ⟨[], by simp [restoreClients]⟩
  | cons c rest ih =>
    intro st em
    rw [restoreClients]
    cases h : fo.client c with
    | some msg => simpa [h] using ih _ _
    | none =>
      cases hex : (if mode = RestoreMode.merge then
          st.db.clients.find?
            (fun e => e.userId == t && e.email == toLowerStr c.email)
        else none) with
      | some ex => simpa [h, hex] using ih _ _
      | none =>
        simp only [h, hex]
        obtain ⟨app, happ⟩ := ih
          { st with
            db := { st.db with clients := st.db.clients ++
              [{ _id := some st.fresh, userId := t, email := c.email,
                 createdAt := some (c.createdAt.getD now),
                 updatedAt := some (c.updatedAt.getD now),
                 extra := c.extra }] },
            mapper := mapperSet st.mapper c._id (some st.fresh),
            fresh := st.fresh + 1,
            res := { st.res with
              restored := { st.res.restored with
                clients := st.res.restored.clients + 1 } } }
          ((toLowerStr c.email, some st.fresh) :: em)
        refine ⟨{ _id := some st.fresh, userId := t, email := c.email,
                  createdAt := some (c.createdAt.getD now),
                  updatedAt := some (c.updatedAt.getD now),
                  extra := c.extra } :: app, ?_⟩
        rw [happ]
        simp

theorem restoreInvoices_mono (fo : FailOracle) (vs : List InvoiceDocument)
    (t : Nat) (mode : RestoreMode) (now : Nat)
    (em : List (String × Option Nat)) :
    ∀ st : RSt,
      ∃ app, (restoreInvoices fo vs t mode now em st).db.invoices =
        st.db.invoices ++ app := by
  induction vs with
  | nil => intro st; exact ⟨[], by simp [restoreInvoices]⟩
  | cons v rest ih =>
    intro st
    rw [restoreInvoices]
    cases h : fo.invoice v with
    | some msg => simpa [h] using ih _
    | none =>
      cases hex : (if mode = RestoreMode.merge ∧
            (invoiceNumberField v).getD "" ≠ "" then
          st.db.invoices.find?
            (fun e => e.userId == t &&
              invoiceNumberField e == some ((invoiceNumberField v).getD ""))
        else none) with
      | some ex => simpa [h, hex] using ih _
      | none =>
        simp only [h, hex]
        obtain ⟨app, happ⟩ := ih
          { st with
            db := { st.db with invoices := st.db.invoices ++
              [{ _id := some st.fresh, userId := t, details := v.details,
                 createdAt := some (v.createdAt.getD now),
                 updatedAt := some (v.updatedAt.getD now),
                 extra := v.extra }] },
            mapper := mapperSet st.mapper v._id (some st.fresh),
            fresh := st.fresh + 1,
            res := { st.res with
              restored := { st.res.restored with
                invoices := st.res.restored.invoices + 1 } } }
        refine ⟨{ _id := some st.fresh, userId := t, details := v.details,
                  createdAt := some (v.createdAt.getD now),
                  updatedAt := some (v.updatedAt.getD now),
                  extra := v.extra } :: app, ?_⟩
        rw [happ]
        simp

end Arctix

namespace Arctix

theorem restoreClients_all_skip (cs : List Client) (t : Nat) (now : Nat) :
    ∀ (st : RSt) (em : List (String × Option Nat)),
      (∀ c ∈ cs, ∃ e, e ∈ st.db.clients ∧ e.userId = t ∧
        e.email = toLowerStr c.email) →
      (restoreClients noFail cs t RestoreMode.merge now st
        em).1.res.restored.clients = st.res.restored.clients ∧
      (restoreClients noFail cs t RestoreMode.merge now st
        em).1.res.skipped.clients = st.res.skipped.clients + cs.length ∧
      (restoreClients noFail cs t RestoreMode.merge now st em).1.db.clients =
        st.db.clients := by
  induction cs with
  | nil => intro st em _; exact ⟨rfl, rfl, rfl⟩
  | cons c rest ih =>
    intro st em hall
    obtain ⟨e, he, heu, hee⟩ := hall c (List.mem_cons_self _ _)
    have hfind : (st.db.clients.find?
        (fun x => x.userId == t && x.email == toLowerStr c.email)).isSome := by
      rw [List.find?_isSome]
      exact ⟨e, he, by simp [heu, hee]⟩
    cases hex : st.db.clients.find?
        (fun x => x.userId == t && x.email == toLowerStr c.email) with
    | none => rw [hex] at hfind; simp at hfind
    | some ex =>
      rw [restoreClients]
      simp only [show noFail.client c = none from rfl, eq_self_iff_true,
        if_true, hex]
      have htail : ∀ c' ∈ rest, ∃ e', e' ∈ st.db.clients ∧ e'.userId = t ∧
          e'.email = toLowerStr c'.email :=
        fun c' hc' => hall c' (List.mem_cons_of_mem _ hc')
      obtain ⟨ih1, ih2, ih3⟩ := ih
        { db := st.db, mapper := mapperSet st.mapper c._id ex._id,
          fresh := st.fresh,
          res := { success := st.res.success, restored := st.res.restored,
                   skipped := { clients := st.res.skipped.clients + 1,
                                invoices := st.res.skipped.invoices,
                                documents := st.res.skipped.documents,
                                statements := st.res.skipped.statements },
                   errors := st.res.errors } }
        ((toLowerStr c.email, ex._id) :: em) htail
      refine ⟨ih1, ?_, ih3⟩
      rw [ih2]
      simp only [List.length_cons]
      omega

theorem restoreInvoices_all_skip (vs : List InvoiceDocument) (t : Nat)
    (now : Nat) (em : List (String × Option Nat)) :
    ∀ st : RSt,
      (∀ v ∈ vs, ∃ n, invoiceNumberField v = some n ∧ n ≠ "" ∧
        ∃ e, e ∈ st.db.invoices ∧ e.userId = t ∧
          invoiceNumberField e = some n) →
      (restoreInvoices noFail vs t RestoreMode.merge now em
        st).res.restored.invoices = st.res.restored.invoices ∧
      (restoreInvoices noFail vs t RestoreMode.merge now em
        st).res.skipped.invoices = st.res.skipped.invoices + vs.length ∧
      (restoreInvoices noFail vs t RestoreMode.merge now em st).db.invoices =
        st.db.invoices := by
  induction vs with
  | nil => intro st _; exact ⟨rfl, rfl, rfl⟩
  | cons v rest ih =>
    intro st hall
    obtain ⟨n, hn, hne, e, he, heu, hein⟩ := hall v (List.mem_cons_self _ _)
    have hfind : (st.db.invoices.find?
        (fun x => x.userId == t && invoiceNumberField x == some n)).isSome := by
      rw [List.find?_isSome]
      exact ⟨e, he, by simp [heu, hein]⟩
    cases hex : st.db.invoices.find?
        (fun x => x.userId == t && invoiceNumberField x == some n) with
    | none => rw [hex] at hfind; simp at hfind
    | some ex =>
      rw [restoreInvoices]
      simp only [show noFail.invoice v = none from rfl, hn, Option.getD_some,
        eq_self_iff_true, true_and, if_pos hne, hex]
      have htail : ∀ v' ∈ rest, ∃ n', invoiceNumberField v' = some n' ∧
          n' ≠ "" ∧ ∃ e', e' ∈ st.db.invoices ∧ e'.userId = t ∧
            invoiceNumberField e' = some n' :=
        fun v' hv' => hall v' (List.mem_cons_of_mem _ hv')
      obtain ⟨ih1, ih2, ih3⟩ := ih
        { db := st.db, mapper := mapperSet st.mapper v._id ex._id,
          fresh := st.fresh,
          res := { success := st.res.success, restored := st.res.restored,
                   skipped := { clients := st.res.skipped.clients,
                                invoices := st.res.skipped.invoices + 1,
                                documents := st.res.skipped.documents,
                                statements := st.res.skipped.statements },
                   errors := st.res.errors } } htail
      refine ⟨ih1, ?_, ih3⟩
      rw [ih2]
      simp only [List.length_cons]
      omega

end Arctix

namespace Arctix

theorem restoreClients_post (cs : List Client) (t : Nat) (now : Nat) :
    ∀ (st : RSt) (em : List (String × Option Nat)),
      (∀ c ∈ cs, toLowerStr c.email = c.email) →
      ∀ c ∈ cs, ∃ e,
        e ∈ (restoreClients noFail cs t RestoreMode.merge now st
          em).1.db.clients ∧
        e.userId = t ∧ e.email = toLowerStr c.email := by
  induction cs with
  | nil => intro st em _ c hc; exact absurd hc (List.not_mem_nil c)
  | cons c0 rest ih =>
    intro st em hlc c hc
    rw [restoreClients]
    simp only [show noFail.client c0 = none from rfl, eq_self_iff_true,
      if_true]
    cases hex : st.db.clients.find?
        (fun x => x.userId == t && x.email == toLowerStr c0.email) with
    | some ex =>
      simp only [hex]
      rcases List.mem_cons.mp hc with rfl | hcr
      · have hp := List.find?_some hex
        simp only [Bool.and_eq_true, beq_iff_eq] at hp
        have hmem0 : ex ∈ st.db.clients := List.mem_of_find?_eq_some hex
        obtain ⟨app, happ⟩ := restoreClients_mono noFail rest t
          RestoreMode.merge now
          { db := st.db, mapper := mapperSet st.mapper c._id ex._id,
            fresh := st.fresh,
            res := { success := st.res.success, restored := st.res.restored,
                     skipped := { clients := st.res.skipped.clients + 1,
                                  invoices := st.res.skipped.invoices,
                                  documents := st.res.skipped.documents,
                                  statements := st.res.skipped.statements },
                     errors := st.res.errors } }
          ((toLowerStr c.email, ex._id) :: em)
        refine ⟨ex, ?_, hp.1, hp.2⟩
        rw [happ]
        exact List.mem_append_left _ hmem0
      · exact ih _ _ (fun c' h' => hlc c' (List.mem_cons_of_mem _ h')) c hcr
    | none =>
      simp only [hex]
      rcases List.mem_cons.mp hc with rfl | hcr
      · obtain ⟨app, happ⟩ := restoreClients_mono noFail rest t
          RestoreMode.merge now
          { db := { users := st.db.users,
                    clients := st.db.clients ++
                      [{ _id := some st.fresh, userId := t, email := c.email,
                         createdAt := some (c.createdAt.getD now),
                         updatedAt := some (c.updatedAt.getD now),
                         extra := c.extra }],
                    invoices := st.db.invoices,
                    documents := st.db.documents,
                    statements := st.db.statements,
                    preferences := st.db.preferences,
                    userDefaults := st.db.userDefaults },
            mapper := mapperSet st.mapper c._id (some st.fresh),
            fresh := st.fresh + 1,
            res := { success := st.res.success,
                     restored := { clients := st.res.restored.clients + 1,
                                   invoices := st.res.restored.invoices,
                                   documents := st.res.restored.documents,
                                   statements := st.res.restored.statements,
                                   preferences := st.res.restored.preferences,
                                   defaults := st.res.restored.defaults },
                     skipped := st.res.skipped, errors := st.res.errors } }
          ((toLowerStr c.email, some st.fresh) :: em)
        refine ⟨{ _id := some st.fresh, userId := t, email := c.email,
                  createdAt := some (c.createdAt.getD now),
                  updatedAt := some (c.updatedAt.getD now),
                  extra := c.extra }, ?_, rfl,
          (hlc c (List.mem_cons_self _ _)).symm⟩
        rw [happ]
        exact List.mem_append_left _
          (List.mem_append_right _ (List.mem_singleton.mpr rfl))
      · exact ih _ _ (fun c' h' => hlc c' (List.mem_cons_of_mem _ h')) c hcr

end Arctix

namespace Arctix

theorem restoreInvoices_post (vs : List InvoiceDocument) (t : Nat)
    (now : Nat) (em : List (String × Option Nat)) :
    ∀ st : RSt,
      (∀ v ∈ vs, ∃ n, invoiceNumberField v = some n ∧ n ≠ "") →
      ∀ v ∈ vs, ∀ n, invoiceNumberField v = some n →
        ∃ e, e ∈ (restoreInvoices noFail vs t RestoreMode.merge now em
          st).db.invoices ∧
          e.userId = t ∧ invoiceNumberField e = some n := by
  induction vs with
  | nil => intro st _ v hv; exact absurd hv (List.not_mem_nil v)
  | cons v0 rest ih =>
    intro st hnum v hv n hn
    rw [restoreInvoices]
    obtain ⟨n0, hn0, hne0⟩ := hnum v0 (List.mem_cons_self _ _)
    simp only [show noFail.invoice v0 = none from rfl, hn0, Option.getD_some,
      eq_self_iff_true, true_and, if_pos hne0]
    cases hex : st.db.invoices.find?
        (fun x => x.userId == t && invoiceNumberField x == some n0) with
    | some ex =>
      simp only [hex]
      rcases List.mem_cons.mp hv with rfl | hvr
      · have hnn : n = n0 := by
          rw [hn0] at hn
          exact (Option.some.injEq _ _ ▸ hn.symm :)
        have hp := List.find?_some hex
        simp only [Bool.and_eq_true, beq_iff_eq] at hp
        have hmem0 : ex ∈ st.db.invoices := List.mem_of_find?_eq_some hex
        obtain ⟨app, happ⟩ := restoreInvoices_mono noFail rest t
          RestoreMode.merge now em
          { db := st.db, mapper := mapperSet st.mapper v._id ex._id,
            fresh := st.fresh,
            res := { success := st.res.success, restored := st.res.restored,
                     skipped := { clients := st.res.skipped.clients,
                                  invoices := st.res.skipped.invoices + 1,
                                  documents := st.res.skipped.documents,
                                  statements := st.res.skipped.statements },
                     errors := st.res.errors } }
        refine ⟨ex, ?_, hp.1, by rw [hp.2, hnn]⟩
        rw [happ]
        exact List.mem_append_left _ hmem0
      · exact ih _ (fun v' h' => hnum v' (List.mem_cons_of_mem _ h')) v hvr
          n hn
    | none =>
      simp only [hex]
      rcases List.mem_cons.mp hv with rfl | hvr
      · obtain ⟨app, happ⟩ := restoreInvoices_mono noFail rest t
          RestoreMode.merge now em
          { db := { users := st.db.users, clients := st.db.clients,
                    invoices := st.db.invoices ++
                      [{ _id := some st.fresh, userId := t,
                         details := v.details,
                         createdAt := some (v.createdAt.getD now),
                         updatedAt := some (v.updatedAt.getD now),
                         extra := v.extra }],
                    documents := st.db.documents,
                    statements := st.db.statements,
                    preferences := st.db.preferences,
                    userDefaults := st.db.userDefaults },
            mapper := mapperSet st.mapper v._id (some st.fresh),
            fresh := st.fresh + 1,
            res := { success := st.res.success,
                     restored := { clients := st.res.restored.clients,
                                   invoices := st.res.restored.invoices + 1,
                                   documents := st.res.restored.documents,
                                   statements := st.res.restored.statements,
                                   preferences := st.res.restored.preferences,
                                   defaults := st.res.restored.defaults },
                     skipped := st.res.skipped, errors := st.res.errors } }
        refine ⟨{ _id := some st.fresh, userId := t, details := v.details,
                  createdAt := some (v.createdAt.getD now),
                  updatedAt := some (v.updatedAt.getD now),
                  extra := v.extra }, ?_, rfl, ?_⟩
        · rw [happ]
          exact List.mem_append_left _
            (List.mem_append_right _ (List.mem_singleton.mpr rfl))
        · show v.details.bind (fun d => d.invoiceNumber) = some n
          exact hn
      · exact ih _ (fun v' h' => hnum v' (List.mem_cons_of_mem _ h')) v hvr
          n hn

end Arctix

namespace Arctix

theorem runRestorePhases_merge_first (bd : BackupData) (t : Nat) (db : Db)
    (fresh now : Nat)
    (hlc : ∀ c ∈ bd.data.clients, toLowerStr c.email = c.email)
    (hnum : ∀ v ∈ bd.data.invoices,
      ∃ n, invoiceNumberField v = some n ∧ n ≠ "") :
    (∀ c ∈ bd.data.clients, ∃ e,
      e ∈ (runRestorePhases noFail bd t RestoreMode.merge db fresh
        now).2.clients ∧
      e.userId = t ∧ e.email = toLowerStr c.email) ∧
    (∀ v ∈ bd.data.invoices, ∀ n, invoiceNumberField v = some n →
      ∃ e, e ∈ (runRestorePhases noFail bd t RestoreMode.merge db fresh
        now).2.invoices ∧
        e.userId = t ∧ invoiceNumberField e = some n) := by
  unfold runRestorePhases
  simp only []
  obtain ⟨i1c, i1d, i1s, i1p, i1u, i1us, i1m⟩ :=
    restoreInvoices_db noFail bd.data.invoices t RestoreMode.merge now
      (restoreClients noFail bd.data.clients t RestoreMode.merge now
        ⟨db, [], fresh, initRestoreResult⟩ []).2
      (restoreClients noFail bd.data.clients t RestoreMode.merge now
        ⟨db, [], fresh, initRestoreResult⟩ []).1
  obtain ⟨s1c, s1i, s1d, s1p, s1u, s1us, s1m⟩ :=
    restoreStatements_db noFail bd.data.statements t RestoreMode.merge now
      (restoreClients noFail bd.data.clients t RestoreMode.merge now
        ⟨db, [], fresh, initRestoreResult⟩ []).2
      (restoreInvoices noFail bd.data.invoices t RestoreMode.merge now
        (restoreClients noFail bd.data.clients t RestoreMode.merge now
          ⟨db, [], fresh, initRestoreResult⟩ []).2
        (restoreClients noFail bd.data.clients t RestoreMode.merge now
          ⟨db, [], fresh, initRestoreResult⟩ []).1)
  obtain ⟨d1c, d1i, d1s, d1p, d1u, d1us, d1m⟩ :=
    restoreDocuments_db noFail bd.data.documents t RestoreMode.merge now
      (restoreStatements noFail bd.data.statements t RestoreMode.merge now
        (restoreClients noFail bd.data.clients t RestoreMode.merge now
          ⟨db, [], fresh, initRestoreResult⟩ []).2
        (restoreInvoices noFail bd.data.invoices t RestoreMode.merge now
          (restoreClients noFail bd.data.clients t RestoreMode.merge now
            ⟨db, [], fresh, initRestoreResult⟩ []).2
          (restoreClients noFail bd.data.clients t RestoreMode.merge now
            ⟨db, [], fresh, initRestoreResult⟩ []).1))
  obtain ⟨p1c, p1i, p1d, p1s, p1u, p1us, p1m⟩ :=
    restorePreferences_db noFail bd.data.preferences t RestoreMode.merge now
      (restoreDocuments noFail bd.data.documents t RestoreMode.merge now
        (restoreStatements noFail bd.data.statements t RestoreMode.merge now
          (restoreClients noFail bd.data.clients t RestoreMode.merge now
            ⟨db, [], fresh, initRestoreResult⟩ []).2
          (restoreInvoices noFail bd.data.invoices t RestoreMode.merge now
            (restoreClients noFail bd.data.clients t RestoreMode.merge now
              ⟨db, [], fresh, initRestoreResult⟩ []).2
            (restoreClients noFail bd.data.clients t RestoreMode.merge now
              ⟨db, [], fresh, initRestoreResult⟩ []).1)))
  obtain ⟨f1c, f1i, f1d, f1s, f1p, f1us, f1m⟩ :=
    restoreDefaults_db noFail bd.data.defaults t RestoreMode.merge now
      (restorePreferences noFail bd.data.preferences t RestoreMode.merge now
        (restoreDocuments noFail bd.data.documents t RestoreMode.merge now
          (restoreStatements noFail bd.data.statements t RestoreMode.merge
            now
            (restoreClients noFail bd.data.clients t RestoreMode.merge now
              ⟨db, [], fresh, initRestoreResult⟩ []).2
            (restoreInvoices noFail bd.data.invoices t RestoreMode.merge now
              (restoreClients noFail bd.data.clients t RestoreMode.merge now
                ⟨db, [], fresh, initRestoreResult⟩ []).2
              (restoreClients noFail bd.data.clients t RestoreMode.merge now
                ⟨db, [], fresh, initRestoreResult⟩ []).1))))
  constructor
  · intro c hc
    obtain ⟨e, he, heu, hee⟩ := restoreClients_post bd.data.clients t now
      ⟨db, [], fresh, initRestoreResult⟩ [] hlc c hc
    refine ⟨e, ?_, heu, hee⟩
    rw [f1c, p1c, d1c, s1c, i1c]
    exact he
  · intro v hv n hn
    obtain ⟨e, he, heu, hen⟩ := restoreInvoices_post bd.data.invoices t now
      (restoreClients noFail bd.data.clients t RestoreMode.merge now
        ⟨db, [], fresh, initRestoreResult⟩ []).2
      (restoreClients noFail bd.data.clients t RestoreMode.merge now
        ⟨db, [], fresh, initRestoreResult⟩ []).1
      hnum v hv n hn
    refine ⟨e, ?_, heu, hen⟩
    rw [f1i, p1i, d1i, s1i]
    exact he

end Arctix

namespace Arctix

theorem runRestorePhases_merge_second (bd : BackupData) (t : Nat) (db : Db)
    (fresh now : Nat)
    (hc : ∀ c ∈ bd.data.clients, ∃ e, e ∈ db.clients ∧ e.userId = t ∧
      e.email = toLowerStr c.email)
    (hv : ∀ v ∈ bd.data.invoices, ∃ n, invoiceNumberField v = some n ∧
      n ≠ "" ∧ ∃ e, e ∈ db.invoices ∧ e.userId = t ∧
        invoiceNumberField e = some n) :
    (runRestorePhases noFail bd t RestoreMode.merge db fresh
      now).1.restored.clients = 0 ∧
    (runRestorePhases noFail bd t RestoreMode.merge db fresh
      now).1.skipped.clients = bd.data.clients.length ∧
    (runRestorePhases noFail bd t RestoreMode.merge db fresh
      now).1.restored.invoices = 0 ∧
    (runRestorePhases noFail bd t RestoreMode.merge db fresh
      now).1.skipped.invoices = bd.data.invoices.length ∧
    (runRestorePhases noFail bd t RestoreMode.merge db fresh
      now).1.restored.statements = bd.data.statements.length ∧
    (runRestorePhases noFail bd t RestoreMode.merge db fresh
      now).1.restored.documents = bd.data.documents.length := by
  unfold runRestorePhases
  simp only []
  set st0 : RSt := ⟨db, [], fresh, initRestoreResult⟩ with hst0
  set s1 := restoreClients noFail bd.data.clients t RestoreMode.merge now
    st0 [] with hs1
  set st2 := restoreInvoices noFail bd.data.invoices t RestoreMode.merge now
    s1.2 s1.1 with hst2
  set st3 := restoreStatements noFail bd.data.statements t RestoreMode.merge
    now s1.2 st2 with hst3
  set st4 := restoreDocuments noFail bd.data.documents t RestoreMode.merge
    now st3 with hst4
  set st5 := restorePreferences noFail bd.data.preferences t
    RestoreMode.merge now st4 with hst5
  set st6 := restoreDefaults noFail bd.data.defaults t RestoreMode.merge now
    st5 with hst6
  have hc0 : ∀ c ∈ bd.data.clients, ∃ e, e ∈ st0.db.clients ∧
      e.userId = t ∧ e.email = toLowerStr c.email := by
    rw [hst0]; exact hc
  obtain ⟨a1, a2, a3⟩ := restoreClients_all_skip bd.data.clients t now st0 []
    hc0
  rw [← hs1] at a1 a2 a3
  have einv : s1.1.db.invoices = db.invoices := by
    have h := (restoreClients_db noFail bd.data.clients t RestoreMode.merge
      now st0 []).1
    rw [← hs1] at h
    rw [h, hst0]
  have hv0 : ∀ v ∈ bd.data.invoices, ∃ n, invoiceNumberField v = some n ∧
      n ≠ "" ∧ ∃ e, e ∈ s1.1.db.invoices ∧ e.userId = t ∧
        invoiceNumberField e = some n := by
    rw [einv]; exact hv
  obtain ⟨b1, b2, b3⟩ := restoreInvoices_all_skip bd.data.invoices t now
    s1.2 s1.1 hv0
  rw [← hst2] at b1 b2 b3
  have r6 := restoreDefaults_res noFail bd.data.defaults t RestoreMode.merge
    now st5
  rw [← hst6] at r6
  have r5 := restorePreferences_res noFail bd.data.preferences t
    RestoreMode.merge now st4
  rw [← hst5] at r5
  have r4 := restoreDocuments_res noFail bd.data.documents t
    RestoreMode.merge now st3
  rw [← hst4] at r4
  have r3 := restoreStatements_res noFail bd.data.statements t
    RestoreMode.merge now s1.2 st2
  rw [← hst3] at r3
  have r2 := restoreInvoices_res noFail bd.data.invoices t RestoreMode.merge
    now s1.2 s1.1
  rw [← hst2] at r2
  have r1 := restoreClients_res noFail bd.data.clients t RestoreMode.merge
    now st0 []
  rw [← hs1] at r1
  have cs3 := restoreStatements_count bd.data.statements t RestoreMode.merge
    now s1.2 st2
  rw [← hst3] at cs3
  have cd4 := restoreDocuments_count bd.data.documents t RestoreMode.merge
    now st3
  rw [← hst4] at cd4
  refine ⟨?_, ?_, ?_, ?_, ?_, ?_⟩
  · show st6.res.restored.clients = 0
    rw [r6.1, r5.1, r4.1, r3.1, r2.1, a1, hst0]
    simp [initRestoreResult]
  · show st6.res.skipped.clients = bd.data.clients.length
    rw [r6.2.1, r5.2.1, r4.2.1, r3.2.1, r2.2.1, a2, hst0]
    simp [initRestoreResult]
  · show st6.res.restored.invoices = 0
    rw [r6.2.2.1, r5.2.2.1, r4.2.2.1, r3.2.2.1, b1, r1.1, hst0]
    simp [initRestoreResult]
  · show st6.res.skipped.invoices = bd.data.invoices.length
    rw [r6.2.2.2.1, r5.2.2.2.1, r4.2.2.2.1, r3.2.2.2.1, b2, r1.2.1, hst0]
    simp [initRestoreResult]
  · show st6.res.restored.statements = bd.data.statements.length
    rw [r6.2.2.2.2.1, r5.2.2.2.2.1, r4.2.2.2.2, cs3, r2.2.2.1, r1.2.2.1,
      hst0]
    simp [initRestoreResult]
  · show st6.res.restored.documents = bd.data.documents.length
    rw [r6.2.2.2.2.2, r5.2.2.2.2.2, cd4, r3.2.2.2.2, r2.2.2.2, r1.2.2.2,
      hst0]
    simp [initRestoreResult]

end Arctix

namespace Arctix

/-- A snapshot client whose email is not lower-case. -/
def upperClient : Client :=
  { _id := some 1, userId := 1, email := "A", createdAt := none,
    updatedAt := none, extra := "" }

/-- A snapshot holding one client with an upper-case email. -/
def bdUpper : BackupData :=
  { metadata :=
      { userId := 1, email := "a@b", backupDate := 0, version := "1.0",
        dataCounts := ⟨1, 0, 0, 0, 0, 0⟩ },
    data :=
      { user := { _id := 1, email := "a@b", extra := "" },
        clients := [upperClient], invoices := [], documents := [],
        statements := [], preferences := none, defaults := [] } }

/-- C2 as stated is false: the merge duplicate check queries the
lower-cased email but the insert keeps the original casing, so a client
with the upper-case email "A" is restored again (not skipped) on the
second merge run from the same snapshot. -/
theorem C2_counterexample :
    (restoreUserData noFail bdUpper 7 RestoreMode.merge
      (restoreUserData noFail bdUpper 7 RestoreMode.merge emptyDb 0 0).2
      10 0).1.restored.clients = 1 := by decide

/-- C2 (amended): provided every client email in the snapshot is already
lower-case and every invoice carries a non-empty invoice number, running
the merge restore twice in a row from the same snapshot against the same
target restores zero clients and invoices on the second run (all counted
as skipped), while every statement and document is inserted again. -/
theorem C2_merge_second_run_amended (bd : BackupData) (t : Nat) (db : Db)
    (f1 now1 f2 now2 : Nat)
    (hlc : ∀ c ∈ bd.data.clients, toLowerStr c.email = c.email)
    (hnum : ∀ v ∈ bd.data.invoices,
      ∃ n, invoiceNumberField v = some n ∧ n ≠ "") :
    (restoreUserData noFail bd t RestoreMode.merge
      (restoreUserData noFail bd t RestoreMode.merge db f1 now1).2 f2
      now2).1.restored.clients = 0 ∧
    (restoreUserData noFail bd t RestoreMode.merge
      (restoreUserData noFail bd t RestoreMode.merge db f1 now1).2 f2
      now2).1.skipped.clients = bd.data.clients.length ∧
    (restoreUserData noFail bd t RestoreMode.merge
      (restoreUserData noFail bd t RestoreMode.merge db f1 now1).2 f2
      now2).1.restored.invoices = 0 ∧
    (restoreUserData noFail bd t RestoreMode.merge
      (restoreUserData noFail bd t RestoreMode.merge db f1 now1).2 f2
      now2).1.skipped.invoices = bd.data.invoices.length ∧
    (restoreUserData noFail bd t RestoreMode.merge
      (restoreUserData noFail bd t RestoreMode.merge db f1 now1).2 f2
      now2).1.restored.statements = bd.data.statements.length ∧
    (restoreUserData noFail bd t RestoreMode.merge
      (restoreUserData noFail bd t RestoreMode.merge db f1 now1).2 f2
      now2).1.restored.documents = bd.data.documents.length := by
  have h0 : ∀ (db' : Db) (f n : Nat),
      restoreUserData noFail bd t RestoreMode.merge db' f n =
        runRestorePhases noFail bd t RestoreMode.merge db' f n := by
    intro db' f n
    simp [restoreUserData, noFail]
  rw [h0, h0]
  obtain ⟨hc', hv'⟩ := runRestorePhases_merge_first bd t db f1 now1 hlc hnum
  refine runRestorePhases_merge_second bd t _ f2 now2 hc' ?_
  intro v hvmem
  obtain ⟨n, hn, hne⟩ := hnum v hvmem
  obtain ⟨e, he, heu, hen⟩ := hv' v hvmem n hn
  exact ⟨n, hn, hne, e, he, heu, hen⟩

/-- Sample lower-case snapshot records for the C2 witness. -/
def goodClient : Client :=
  { _id := some 1, userId := 1, email := "a", createdAt := none,
    updatedAt := none, extra := "" }

/-- A sample invoice with a non-empty invoice number. -/
def goodInvoice : InvoiceDocument :=
  { _id := some 2, userId := 1,
    details := some { invoiceNumber := some "7", extra := "" },
    createdAt := none, updatedAt := none, extra := "" }

/-- A sample statement for the C2 witness. -/
def goodStatement : StatementDocument :=
  { _id := some 3, userId := 1, clientId := none, clientEmail := none,
    createdAt := none, updatedAt := none, extra := "" }

/-- A sample document for the C2 witness. -/
def goodDoc : Document :=
  { _id := some 4, userId := 1, invoiceId := none, parentDocumentId := none,
    uploadedBy := 1, createdAt := none, updatedAt := none, extra := "" }

/-- A well-behaved snapshot: lower-case client email, numbered invoice,
one statement, one document. -/
def bdGood : BackupData :=
  { metadata :=
      { userId := 1, email := "a@b", backupDate := 0, version := "1.0",
        dataCounts := ⟨1, 1, 1, 1, 0, 0⟩ },
    data :=
      { user := { _id := 1, email := "a@b", extra := "" },
        clients := [goodClient], invoices := [goodInvoice],
        documents := [goodDoc], statements := [goodStatement],
        preferences := none, defaults := [] } }

theorem C2_witness :
    (restoreUserData noFail bdGood 7 RestoreMode.merge
      (restoreUserData noFail bdGood 7 RestoreMode.merge emptyDb 0 0).2 10
      0).1.restored.clients = 0 ∧
    (restoreUserData noFail bdGood 7 RestoreMode.merge
      (restoreUserData noFail bdGood 7 RestoreMode.merge emptyDb 0 0).2 10
      0).1.skipped.clients = bdGood.data.clients.length ∧
    (restoreUserData noFail bdGood 7 RestoreMode.merge
      (restoreUserData noFail bdGood 7 RestoreMode.merge emptyDb 0 0).2 10
      0).1.restored.invoices = 0 ∧
    (restoreUserData noFail bdGood 7 RestoreMode.merge
      (restoreUserData noFail bdGood 7 RestoreMode.merge emptyDb 0 0).2 10
      0).1.skipped.invoices = bdGood.data.invoices.length ∧
    (restoreUserData noFail bdGood 7 RestoreMode.merge
      (restoreUserData noFail bdGood 7 RestoreMode.merge emptyDb 0 0).2 10
      0).1.restored.statements = bdGood.data.statements.length ∧
    (restoreUserData noFail bdGood 7 RestoreMode.merge
      (restoreUserData noFail bdGood 7 RestoreMode.merge emptyDb 0 0).2 10
      0).1.restored.documents = bdGood.data.documents.length :=
  C2_merge_second_run_amended bdGood 7 emptyDb 0 0 10 0
    (fun c hc => by rw [List.mem_singleton.mp hc]; rfl)
    (fun v hv => by
      rw [List.mem_singleton.mp hv]
      exact ⟨"7", rfl, by decide⟩)

end Arctix

namespace Arctix

theorem cleanupSweep_spec (delFail : String → Bool) :
    ∀ (td : List BackupMetadata) (fs : List FileEntry),
      (cleanupSweep delFail td fs).1 =
        (td.filter (fun b => !delFail b.filename)).length ∧
      (cleanupSweep delFail td fs).2 =
        fs.filter (fun e =>
          !((td.filter (fun b => !delFail b.filename)).map
            (fun b => b.filename)).contains e.name) := by
  intro td
  induction td with
  | nil =>
    intro fs
    refine ⟨rfl, ?_⟩
    simp [cleanupSweep]
  | cons b rest ih =>
    intro fs
    rw [cleanupSweep]
    cases hb : delFail b.filename with
    | true =>
      rw [if_pos rfl]
      have hflt : (b :: rest).filter (fun x => !delFail x.filename) =
          rest.filter (fun x => !delFail x.filename) := by
        simp [List.filter_cons, hb]
      rw [hflt]
      exact ih fs
    | false =>
      rw [if_neg (by simp)]
      have hflt : (b :: rest).filter (fun x => !delFail x.filename) =
          b :: rest.filter (fun x => !delFail x.filename) := by
        simp [List.filter_cons, hb]
      rw [hflt]
      constructor
      · show (cleanupSweep delFail rest
            (deleteBackupFile fs b.filename)).1 + 1 = _
        rw [(ih _).1]
        simp
      · show (cleanupSweep delFail rest
            (deleteBackupFile fs b.filename)).2 = _
        rw [(ih _).2]
        unfold deleteBackupFile
        rw [List.filter_filter]
        apply List.filter_congr
        intro e _
        simp only [List.map_cons, List.contains_cons]
        cases he : e.name == b.filename with
        | true => simp [he]
        | false => simp [he]

end Arctix

namespace Arctix

/-- C6: the retention sweep does nothing when at most `keepCount` archives
are listed; otherwise it attempts to delete exactly the entries beyond the
first `keepCount` of the newest-first listing — with no deletion failures
it deletes exactly `n - keepCount` entries and returns that count, an
individual failure is skipped without aborting the sweep (the count and
the directory reflect exactly the successful deletions) — and every
retained entry has a capture timestamp at least that of every deleted
entry. -/
theorem C6_retention_sweep (delFail : String → Bool) (uid : String)
    (k : Nat) (fs : List FileEntry) :
    ((listUserBackups uid fs).length ≤ k →
      cleanupOldBackups delFail uid k fs = (0, fs)) ∧
    (k < (listUserBackups uid fs).length →
      (cleanupOldBackups noDelFail uid k fs).1 =
        (listUserBackups uid fs).length - k ∧
      (cleanupOldBackups delFail uid k fs).1 =
        (((listUserBackups uid fs).drop k).filter
          (fun b => !delFail b.filename)).length ∧
      (cleanupOldBackups delFail uid k fs).2 =
        fs.filter (fun e =>
          !((((listUserBackups uid fs).drop k).filter
            (fun b => !delFail b.filename)).map
              (fun b => b.filename)).contains e.name)) ∧
    (∀ b ∈ (listUserBackups uid fs).take k,
      ∀ d ∈ (listUserBackups uid fs).drop k,
        d.backupDate ≤ b.backupDate) := by
  refine ⟨?_, ?_, ?_⟩
  · intro h
    unfold cleanupOldBackups
    simp only []
    rw [if_pos h]
  · intro h
    have hn : ¬ (listUserBackups uid fs).length ≤ k := not_le.mpr h
    unfold cleanupOldBackups
    simp only []
    rw [if_neg hn, if_neg hn]
    refine ⟨?_, (cleanupSweep_spec delFail _ fs).1,
      (cleanupSweep_spec delFail _ fs).2⟩
    rw [(cleanupSweep_spec noDelFail _ fs).1]
    have : ((listUserBackups uid fs).drop k).filter
        (fun b => !noDelFail b.filename) =
        (listUserBackups uid fs).drop k := by
      simp [noDelFail]
    rw [this, List.length_drop]
  · haveI htot : IsTotal BackupMetadata
        (fun a b => b.backupDate ≤ a.backupDate) :=
      ⟨fun a b => le_total b.backupDate a.backupDate⟩
    haveI htr : IsTrans BackupMetadata
        (fun a b => b.backupDate ≤ a.backupDate) :=
      ⟨fun _ _ _ hab hbc => le_trans hbc hab⟩
    have hs : List.Pairwise (fun a b => b.backupDate ≤ a.backupDate)
        (listUserBackups uid fs) :=
      List.sorted_insertionSort _ _
    rw [← List.take_append_drop k (listUserBackups uid fs)] at hs
    exact (List.pairwise_append.mp hs).2.2

end Arctix

namespace Arctix

/-- Sample archive files for the C6 witness (unreadable contents, so the
listing uses the degraded fallback metadata). -/
def fileA : FileEntry :=
  { name := "backup-user-x-1.json.gz", data := none, birthtime := 30,
    size := 5 }

/-- Second sample archive file. -/
def fileB : FileEntry :=
  { name := "backup-user-y-1.json.gz", data := none, birthtime := 20,
    size := 5 }

/-- Third sample archive file. -/
def fileC : FileEntry :=
  { name := "backup-user-z-1.json.gz", data := none, birthtime := 10,
    size := 5 }

/-- A sample backup directory. -/
def sampleFs : List FileEntry := [fileC, fileA, fileB]

/-- A deletion oracle that fails on one specific entry. -/
def sampleDelFail : String → Bool :=
  fun s => s == "backup-user-y-1.json.gz"

theorem C6_witness :
    ((cleanupOldBackups noDelFail "1" 1 sampleFs).1 =
      (listUserBackups "1" sampleFs).length - 1 ∧
     (cleanupOldBackups sampleDelFail "1" 1 sampleFs).1 =
      (((listUserBackups "1" sampleFs).drop 1).filter
        (fun b => !sampleDelFail b.filename)).length ∧
     (cleanupOldBackups sampleDelFail "1" 1 sampleFs).2 =
      sampleFs.filter (fun e =>
        !((((listUserBackups "1" sampleFs).drop 1).filter
          (fun b => !sampleDelFail b.filename)).map
            (fun b => b.filename)).contains e.name)) ∧
    cleanupOldBackups noDelFail "1" 5 sampleFs = (0, sampleFs) :=
  ⟨(C6_retention_sweep sampleDelFail "1" 1 sampleFs).2.1 (by decide),
   (C6_retention_sweep noDelFail "1" 5 sampleFs).1 (by decide)⟩

end Arctix
